import Mathlib

/-!
Shallow embedding of `build-parts-list.py` and `build-sphere-distribution.py`
(repository spencerhhubert/spheres).

The first file is an incremental multi-source enrichment pipeline:
`main` loads the persisted document `parts.json`, builds an id-indexed cache
dictionary, and walks catalog pages 1..MAX_PAGES; `scrapePage` parses each
row, decides cache-hit vs full enrichment (Rebrickable lookup followed by a
BrickLink detail scrape), appends the merged record to the in-memory list and
rewrites the whole document after every row.  Network adapters are modelled as
deterministic functions packaged in `Env`; the HTML elements a row exposes are
modelled as optional raw strings (`RawRow`); Python exceptions raised while
parsing a row are the `RowOutcome.exn` outcome, which propagates out of
`scrapePage` and aborts the run (the `except` in `main` breaks the page loop).
Python `float` values never participate in arithmetic in the first file, so
they are embedded as exact rationals; the second file's `math.sqrt` is
embedded over the reals.
-/

namespace Spheres

/-- external_ids: mapping from external-catalog-name to an ordered sequence of
identifier strings (the JSON object is embedded as an association list). -/
abbrev ExternalIds := List (String × List String)

/-- BrickPiece, the TypedDict of build-parts-list.py lines 37-52. -/
structure BrickPiece where
  name : String
  id : String
  overall_rank : Int
  num_pieces : Int
  num_sets : Int
  num_colors : Int
  begin_year : Int
  end_year : Int
  total_years : Int
  weight : Option ℚ
  pack_dim_x : Option ℚ
  pack_dim_y : Option ℚ
  pack_dim_z : Option ℚ
  rebrickable_part_num : Option String
  external_ids : Option ExternalIds
deriving DecidableEq

/-- MAX_PAGES = 100 (line 59). -/
def MAX_PAGES : Nat := 100

/-- Python `str.strip()` on a character list: drop whitespace from both
ends.  (All text functions below work on character lists by structural
recursion, so that every concrete computation reduces in the kernel.) -/
def pyStripChars (cs : List Char) : List Char :=
  ((cs.dropWhile Char.isWhitespace).reverse.dropWhile Char.isWhitespace).reverse

/-- `get_text(strip=True)`. -/
def pyStrip (s : String) : String :=
  String.mk (pyStripChars s.data)

/-- Python `s.split(c)` for a one-character separator: adjacent separators
yield empty fields, the empty string yields one empty field. -/
def splitChar (c : Char) : List Char → List (List Char)
  | [] => [[]]
  | a :: as =>
    match splitChar c as with
    | [] => [[]]
    | g :: gs => if a == c then [] :: g :: gs else (a :: g) :: gs

/-- Python `s.split()` (no argument): split on whitespace runs, dropping
empty fields. -/
def splitPred (f : Char → Bool) : List Char → List (List Char)
  | [] => [[]]
  | a :: as =>
    match splitPred f as with
    | [] => [[]]
    | g :: gs => if f a then [] :: g :: gs else (a :: g) :: gs

/-- Decimal value of a run of ASCII digits. -/
def digitsVal (cs : List Char) : Nat :=
  cs.foldl (fun n c => 10 * n + (c.toNat - 48)) 0

/-- Python `int(s)`: strips whitespace, accepts an optional sign followed by
a nonempty run of decimal digits; any other input raises ValueError, embedded
as `none`.  (PEP 515 underscore grouping is not modelled; no input relevant
to the claims contains an underscore.) -/
def pyIntChars (cs0 : List Char) : Option Int :=
  let t := pyStripChars cs0
  let sd : Int × List Char :=
    match t with
    | '-' :: rest => (-1, rest)
    | '+' :: rest => (1, rest)
    | _ => (1, t)
  if !sd.2.isEmpty && sd.2.all Char.isDigit then
    some (sd.1 * (digitsVal sd.2 : Int))
  else none

/-- `int()` applied to a string. -/
def pyInt (s : String) : Option Int :=
  pyIntChars s.data

/-- Python `float(s)` restricted to the strings the regexes feed it: runs of
digits and dots.  Valid iff there is at most one dot and at least one digit;
otherwise ValueError, embedded as `none`. -/
def pyFloat (cs : List Char) : Option ℚ :=
  if (cs.count '.') ≤ 1 && cs.any Char.isDigit
      && cs.all (fun c => c.isDigit || c == '.') && !cs.isEmpty then
    match splitChar '.' cs with
    | [w] => some (digitsVal w : ℚ)
    | [w, f] => some ((digitsVal w : ℚ) + (digitsVal f : ℚ) / (10 ^ f.length))
    | _ => none
  else none

/-- Python `s.replace(',', '')`. -/
def removeCommas (cs : List Char) : List Char :=
  cs.filter (fun c => !(c == ','))

/-- `elem.get_text(strip=True) if elem else dflt` (lines 184, 193). -/
def getTextStrip (e : Option String) (dflt : String) : String :=
  match e with
  | some s => pyStrip s
  | none => dflt

/-- Lines 185-191: begin_year/end_year default to 0; a nonempty string
containing a dash is split on the dash and `int()` is applied to the first two
segments; an `int()` failure raises (result `none`). -/
def parseYears (years_text : String) : Option (Int × Int) :=
  let cs := years_text.data
  if !cs.isEmpty && cs.contains '-' then
    let year_parts := splitChar '-' cs
    match pyIntChars (year_parts.getD 0 []), pyIntChars (year_parts.getD 1 []) with
    | some b, some e => some (b, e)
    | _, _ => none
  else some (0, 0)

/-- Lines 193-194: `int(total_years_text.split()[0]) if total_years_text else 0`
with the missing element defaulting the text to "0". -/
def parseTotalYears (total_years_elem : Option String) : Option Int :=
  let total_years_text := getTextStrip total_years_elem "0"
  if !total_years_text.data.isEmpty then
    match (splitPred Char.isWhitespace total_years_text.data).filter
        (fun w => !w.isEmpty) with
    | [] => none
    | w :: _ => pyIntChars w
  else some 0

/-- `int(elem.get_text(strip=True)) if elem else 0` (rank, line 205;
num_colors, line 208: no comma stripping at either site). -/
def parseIntElem (e : Option String) : Option Int :=
  match e with
  | some s => pyIntChars (pyStripChars s.data)
  | none => some 0

/-- `int(elem.get_text(strip=True).replace(',', '')) if elem else 0`
(num_pieces line 206, num_sets line 207). -/
def parseIntElemComma (e : Option String) : Option Int :=
  match e with
  | some s => pyIntChars (removeCommas (pyStripChars s.data))
  | none => some 0

/-- One `.tr` row of the catalog page: the elements the selectors of lines
171-182 may find, as optional raw texts. -/
structure RawRow where
  part_name_elem : Option String
  part_num_elem : Option String
  rank_elem : Option String
  num_pieces_elem : Option String
  num_sets_elem : Option String
  num_colors_elem : Option String
  years_elem : Option String
  total_years_elem : Option String
deriving DecidableEq

/-- The four `int()` conversions inside the piece dict literal (lines 205-208
and 237-240): rank, num_pieces, num_sets, num_colors.  Any failure raises. -/
def parseRowCounts (r : RawRow) : Option (Int × Int × Int × Int) :=
  match parseIntElem r.rank_elem, parseIntElemComma r.num_pieces_elem,
      parseIntElemComma r.num_sets_elem, parseIntElem r.num_colors_elem with
  | some rk, some np, some ns, some nc => some (rk, np, ns, nc)
  | _, _, _, _ => none

/-- `part_id = part_num_elem.get_text(strip=True)` (line 196). -/
def rowId (r : RawRow) : String := pyStrip (r.part_num_elem.getD "")

/-- Deterministic upstream sources.  `lookup` is getRebrickableData's returned
triple (bricklink_id, part_num, external_ids); `detail` is scrapeBricklinkData's
returned quadruple (weight, pack_dim_x, pack_dim_y, pack_dim_z); `pages` is the
parsed row list of one catalog page.  Catalog page fetches are assumed to
succeed (a transport failure there would abort the run exactly like a row
exception, and no claim distinguishes the two); a present bricklink_id is
taken as truthy (the code's `if bricklink_id:` would also treat an empty
string as a miss, a case the lookup source does not produce). -/
structure Env where
  lookup : String → Option String × Option String × Option ExternalIds
  pages : Nat → List RawRow
  detail : String → Option ℚ × Option ℚ × Option ℚ × Option ℚ

/-- One network call made by the orchestrator to a slow adapter. -/
inductive Call where
  | lookup : String → Call
  | detail : String → Call
deriving DecidableEq

/-- Outcome of one loop iteration of scrapePage: the row is skipped (missing
name or id element, line 174), an exception propagates, or a piece is built. -/
inductive RowOutcome where
  | skip : RowOutcome
  | exn : RowOutcome
  | ok : BrickPiece → RowOutcome
deriving DecidableEq

/-- Construction of the piece dict (lines 202-218 and 234-250): the catalog
fields are parsed from the row, the six enrichment-side values `e` come either
from the cached record or from the adapters.  An `int()` failure inside the
literal raises. -/
def buildPiece (nm part_id : String) (bY eY tY : Int) (r : RawRow)
    (e : Option ℚ × Option ℚ × Option ℚ × Option ℚ × Option String × Option ExternalIds) :
    RowOutcome :=
  match parseRowCounts r with
  | none => RowOutcome.exn
  | some (rk, np, ns, nc) =>
    RowOutcome.ok
      { name := (pyStrip nm), id := part_id, overall_rank := rk, num_pieces := np,
        num_sets := ns, num_colors := nc, begin_year := bY, end_year := eY,
        total_years := tY,
        weight := e.1, pack_dim_x := e.2.1, pack_dim_y := e.2.2.1,
        pack_dim_z := e.2.2.2.1, rebrickable_part_num := e.2.2.2.2.1,
        external_ids := e.2.2.2.2.2 }

/-- The body of scrapePage's row loop (lines 170-250), together with the list
of slow-adapter calls it performs.  On a cache hit the six enrichment values
are copied from the cached record and no call is made; on a miss the
Rebrickable lookup runs, then the BrickLink scrape iff a bricklink_id was
found.  Parse failures before the cache check (years, total_years) raise with
no call made; a parse failure inside the dict literal raises after the calls. -/
def processRow (env : Env) (cache : String → Option BrickPiece) (r : RawRow) :
    RowOutcome × List Call :=
  match r.part_name_elem, r.part_num_elem with
  | none, _ => (RowOutcome.skip, [])
  | some _, none => (RowOutcome.skip, [])
  | some nm, some pid =>
    match parseYears (getTextStrip r.years_elem "") with
    | none => (RowOutcome.exn, [])
    | some (bY, eY) =>
      match parseTotalYears r.total_years_elem with
      | none => (RowOutcome.exn, [])
      | some tY =>
        let part_id := (pyStrip pid)
        match cache part_id with
        | some existing_piece =>
          (buildPiece nm part_id bY eY tY r
            (existing_piece.weight, existing_piece.pack_dim_x,
             existing_piece.pack_dim_y, existing_piece.pack_dim_z,
             existing_piece.rebrickable_part_num, existing_piece.external_ids), [])
        | none =>
          match env.lookup part_id with
          | (some blid, rebrickable_part_num, ext_ids) =>
            match env.detail blid with
            | (w, dx, dy, dz) =>
              (buildPiece nm part_id bY eY tY r
                (w, dx, dy, dz, rebrickable_part_num, ext_ids),
               [Call.lookup part_id, Call.detail blid])
          | (none, rebrickable_part_num, ext_ids) =>
            (buildPiece nm part_id bY eY tY r
              (none, none, none, none, rebrickable_part_num, ext_ids),
             [Call.lookup part_id])

/-- The persisted document: `{'pieces': pieces_list}` (line 268). -/
structure Document where
  pieces : List BrickPiece
deriving DecidableEq

/-- saveData (lines 267-270): full overwrite with the given sequence. -/
def saveData (pieces_list : List BrickPiece) : Document :=
  ⟨pieces_list⟩

/-- loadExistingData (lines 259-264): the pieces of the document if the file
exists, an empty list otherwise. -/
def loadExistingData : Option Document → List BrickPiece
  | some d => d.pieces
  | none => []

/-- Result of one scrapePage call: the accumulated list after the page, the
page's pieces_count, the documents written by the per-row saveData calls in
order, the slow-adapter calls, and whether an exception propagated out. -/
structure PageOutcome where
  pieces : List BrickPiece
  count : Nat
  saves : List Document
  calls : List Call
  aborted : Bool

/-- The row loop of scrapePage (lines 170-254): skipped rows are not counted
and trigger no save; an exception stops the loop at once; each built piece is
appended to all_pieces and the whole list is saved immediately. -/
def processRows (env : Env) (cache : String → Option BrickPiece) :
    List RawRow → List BrickPiece → Nat → PageOutcome
  | [], all_pieces, cnt => ⟨all_pieces, cnt, [], [], false⟩
  | r :: rs, all_pieces, cnt =>
    match processRow env cache r with
    | (RowOutcome.skip, cs) =>
      let rest := processRows env cache rs all_pieces cnt
      ⟨rest.pieces, rest.count, rest.saves, cs ++ rest.calls, rest.aborted⟩
    | (RowOutcome.exn, cs) => ⟨all_pieces, cnt, [], cs, true⟩
    | (RowOutcome.ok p, cs) =>
      let acc2 := all_pieces ++ [p]
      let rest := processRows env cache rs acc2 (cnt + 1)
      ⟨rest.pieces, rest.count, saveData acc2 :: rest.saves,
        cs ++ rest.calls, rest.aborted⟩

/-- Result of a whole run of main: final all_pieces, every document written,
every slow-adapter call, the page numbers fetched, each fetched page's
pieces_count, and whether the run was aborted by an exception. -/
structure RunResult where
  pieces : List BrickPiece
  saves : List Document
  calls : List Call
  fetched : List Nat
  pageCounts : List Nat
  aborted : Bool

/-- The while loop of main (lines 281-296), with `fuel` the number of page
numbers still allowed by the `page <= MAX_PAGES` guard.  An exception from
scrapePage breaks the loop, as does a page with pieces_count == 0. -/
def mainLoop (env : Env) (cache : String → Option BrickPiece) :
    Nat → Nat → List BrickPiece → RunResult
  | 0, _, all_pieces => ⟨all_pieces, [], [], [], [], false⟩
  | fuel + 1, page, all_pieces =>
    let pr := processRows env cache (env.pages page) all_pieces 0
    if pr.aborted then
      ⟨pr.pieces, pr.saves, pr.calls, [page], [pr.count], true⟩
    else if pr.count = 0 then
      ⟨pr.pieces, pr.saves, pr.calls, [page], [pr.count], false⟩
    else
      let rest := mainLoop env cache fuel (page + 1) pr.pieces
      ⟨rest.pieces, pr.saves ++ rest.saves, pr.calls ++ rest.calls,
        page :: rest.fetched, pr.count :: rest.pageCounts, rest.aborted⟩

/-- `{piece['id']: piece for piece in existing_pieces}` (line 275): the last
occurrence of an id wins, exactly as for a Python dict comprehension. -/
def buildPartsDict (pieces : List BrickPiece) : String → Option BrickPiece :=
  pieces.foldl (fun d p => fun i => if i = p.id then some p else d i) (fun _ => none)

/-- main (lines 273-298): load the cache, build the id index, start from an
empty in-memory list at page 1. -/
def run (env : Env) (existing_pieces : List BrickPiece) : RunResult :=
  mainLoop env (buildPartsDict existing_pieces) MAX_PAGES 1 []

/-- Number of fetched pages that yielded a nonzero pieces_count. -/
def processedPages (r : RunResult) : Nat :=
  (r.pageCounts.filter (fun c => c != 0)).length

/-- The successive nonempty prefixes of a list; the documents written during a
run are exactly these (each save is the full accumulated sequence so far). -/
def prefixesOf : List BrickPiece → List (List BrickPiece)
  | [] => []
  | p :: l => [p] :: (prefixesOf l).map (fun t => p :: t)

/-- The document on disk after a run that started from document state `d0`:
the last document written during the run, or `d0` unchanged when the run wrote
nothing. -/
def docAfterRun (env : Env) (d0 : Option Document) : Option Document :=
  match (run env (loadExistingData d0)).saves.getLast? with
  | some d => some d
  | none => d0

/-- The six enrichment-side fields of a piece. -/
def enrichOf (p : BrickPiece) :
    Option ℚ × Option ℚ × Option ℚ × Option ℚ × Option String × Option ExternalIds :=
  (p.weight, p.pack_dim_x, p.pack_dim_y, p.pack_dim_z,
   p.rebrickable_part_num, p.external_ids)

/-- The enrichment values any piece built for id `i` receives in a run whose
cache is `cache`: copied from the cached record on a hit, otherwise computed
from the (deterministic) lookup and detail adapters. -/
def freshEnrich (env : Env) (cache : String → Option BrickPiece) (i : String) :
    Option ℚ × Option ℚ × Option ℚ × Option ℚ × Option String × Option ExternalIds :=
  match cache i with
  | some c => enrichOf c
  | none =>
    match env.lookup i with
    | (some blid, rb, ext) =>
      match env.detail blid with
      | (w, x, y, z) => (w, x, y, z, rb, ext)
    | (none, rb, ext) => (none, none, none, none, rb, ext)

/-! ### The BrickLink detail adapter, scrapeBricklinkData (lines 104-155)

Needed in detail only for the rate-limit claim: the function body is one big
`try` whose final two statements are `time.sleep(BRICKLINK_SLEEP_DURATION)`
and the return of the parsed tuple; the `except` arm returns all-None without
sleeping.  The fetched page is `none` on a transport failure
(requests.get/raise_for_status raising); otherwise it exposes the optional
weight-element text and the `span[id="dimSec"]` texts in document order. -/

/-- BRICKLINK_SLEEP_DURATION = 2 (line 61), in seconds. -/
def BRICKLINK_SLEEP_DURATION : ℚ := 2

/-- Decidable equality for Except results (used only to evaluate concrete
detail-adapter calls). -/
instance {ε α : Type} [DecidableEq ε] [DecidableEq α] : DecidableEq (Except ε α) :=
  fun a b =>
    match a, b with
    | Except.error e1, Except.error e2 =>
      if h : e1 = e2 then isTrue (by rw [h])
      else isFalse (fun hh => h (by injection hh))
    | Except.ok a1, Except.ok a2 =>
      if h : a1 = a2 then isTrue (by rw [h])
      else isFalse (fun hh => h (by injection hh))
    | Except.error _, Except.ok _ => isFalse (fun hh => Except.noConfusion hh)
    | Except.ok _, Except.error _ => isFalse (fun hh => Except.noConfusion hh)

/-- A fetched BrickLink catalog item page, reduced to the parts the scraper
reads. -/
structure DetailPage where
  weight_elem : Option String
  dim_spans : List String
deriving DecidableEq

/-- `re.findall(r'([\d.]+)', s)`: the maximal runs of digits and dots. -/
def digitRuns (s : String) : List (List Char) :=
  (splitPred (fun c => !(c.isDigit || c == '.')) s.data).filter (fun w => !w.isEmpty)

/-- Whether `sub` is a prefix of `cs`. -/
def charsPrefix : List Char → List Char → Bool
  | [], _ => true
  | _ :: _, [] => false
  | a :: as, b :: bs => a == b && charsPrefix as bs

/-- Python `sub in s` for strings: substring containment. -/
def charsContains (sub : List Char) : List Char → Bool
  | [] => sub.isEmpty
  | b :: bs => charsPrefix sub (b :: bs) || charsContains sub bs

/-- Lines 118-129: weight stays None when the element or the regex match is
missing; a `float()` failure on the matched run raises (Except.error). -/
def parseWeightE (weight_elem : Option String) : Except Unit (Option ℚ) :=
  match weight_elem with
  | none => Except.ok none
  | some t =>
    match (digitRuns (pyStrip t)).head? with
    | none => Except.ok none
    | some ds =>
      match pyFloat ds with
      | some w => Except.ok (some w)
      | none => Except.error ()

/-- Lines 131-145: scan the dimSec spans in order; the first whose text
contains "cm" and yields at least three numeric runs determines X, Y, Z and
stops the scan; a `float()` failure raises; spans that do not qualify are
passed over. -/
def parseDimsE : List String → Except Unit (Option ℚ × Option ℚ × Option ℚ)
  | [] => Except.ok (none, none, none)
  | t :: ts =>
    let dim_text := pyStrip t
    if charsContains ['c', 'm'] dim_text.data then
      let runs := digitRuns dim_text
      if 3 ≤ runs.length then
        match pyFloat (runs.getD 0 []), pyFloat (runs.getD 1 []), pyFloat (runs.getD 2 []) with
        | some x, some y, some z => Except.ok (some x, some y, some z)
        | _, _, _ => Except.error ()
      else parseDimsE ts
    else parseDimsE ts

/-- scrapeBricklinkData (lines 104-155).  The second component records the
sleep performed: `some BRICKLINK_SLEEP_DURATION` when line 150 ran, `none`
when the except arm (line 153) took over.  The except arm returns
(None, None, None, None) and performs no sleep. -/
def scrapeBricklinkData (page : Option DetailPage) :
    (Option ℚ × Option ℚ × Option ℚ × Option ℚ) × Option ℚ :=
  match page with
  | none => ((none, none, none, none), none)
  | some dp =>
    match parseWeightE dp.weight_elem with
    | Except.error _ => ((none, none, none, none), none)
    | Except.ok w =>
      match parseDimsE dp.dim_spans with
      | Except.error _ => ((none, none, none, none), none)
      | Except.ok (x, y, z) => ((w, x, y, z), some BRICKLINK_SLEEP_DURATION)

/-! ### The downstream consumer, build-sphere-distribution.py

Floats are embedded as exact rationals up to `math.sqrt`, which is embedded as
the real square root; the claims about this file are statements of exact real
arithmetic. -/

/-- DO_WEIGHTING = False (line 11 of build-sphere-distribution.py). -/
def DO_WEIGHTING : Bool := false

/-- A record as read back from the persisted document, reduced to the fields
extractSphereDiameters looks at. -/
structure SpherePart where
  pack_dim_x : Option ℚ
  pack_dim_y : Option ℚ
  pack_dim_z : Option ℚ
  overall_rank : Int
deriving DecidableEq

/-- getMinSphereDiameter (lines 21-28): convert cm to mm and take the 3D
Euclidean diagonal. -/
noncomputable def getMinSphereDiameter (dim_x_cm dim_y_cm dim_z_cm : ℚ) : ℝ :=
  let x_mm : ℝ := ((dim_x_cm * 10 : ℚ) : ℝ)
  let y_mm : ℝ := ((dim_y_cm * 10 : ℚ) : ℝ)
  let z_mm : ℝ := ((dim_z_cm * 10 : ℚ) : ℝ)
  Real.sqrt (x_mm ^ 2 + y_mm ^ 2 + z_mm ^ 2)

/-- extractSphereDiameters (lines 31-60): keep records with all three
dimensions present and nonzero, in order; each contributes its diameter and a
weight (1.0 since DO_WEIGHTING is False; the dead weighting branch is kept). -/
noncomputable def extractSphereDiameters : List SpherePart → List ℝ × List ℚ
  | [] => ([], [])
  | part :: parts =>
    match part.pack_dim_x, part.pack_dim_y, part.pack_dim_z with
    | some x, some y, some z =>
      if x = 0 ∨ y = 0 ∨ z = 0 then extractSphereDiameters parts
      else
        let diameter := getMinSphereDiameter x y z
        let weight : ℚ :=
          if DO_WEIGHTING then
            (if 0 < part.overall_rank then 1 / (part.overall_rank : ℚ) else 0)
          else 1
        let rest := extractSphereDiameters parts
        (diameter :: rest.1, weight :: rest.2)
    | _, _, _ => extractSphereDiameters parts

/-- `np.average(a, weights=w)`: the w-weighted mean of a. -/
noncomputable def npAverage (ds : List ℝ) (ws : List ℚ) : ℝ :=
  ((ds.zip ws).map (fun p => p.1 * (p.2 : ℝ))).sum / ((ws.map (fun w => (w : ℝ))).sum)

/-! ### Derived notions used to state the claims -/

/-- Whether scrapePage would build a piece from this row: name and id elements
present and every `int()` conversion succeeding.  This is a property of the
row alone — neither the cache nor the adapters can change it. -/
def rowOk (r : RawRow) : Bool :=
  r.part_name_elem.isSome && r.part_num_elem.isSome &&
  (parseYears (getTextStrip r.years_elem "")).isSome &&
  (parseTotalYears r.total_years_elem).isSome &&
  (parseRowCounts r).isSome

/-- The ids of the countable rows of a page, in page order. -/
def okRowIds (rows : List RawRow) : List String :=
  (rows.filter rowOk).map rowId

/-- The ids of all countable rows on pages 1..MAX_PAGES, in fetch order. -/
def allRowIds (env : Env) : List String :=
  (List.range' 1 MAX_PAGES).flatMap (fun pg => okRowIds (env.pages pg))

/-- The pieces_count scrapePage reports for one page of a run over the given
persisted pieces (the count does not depend on the accumulated list). -/
def pageCountOf (env : Env) (existing : List BrickPiece) (pg : Nat) : Nat :=
  (processRows env (buildPartsDict existing) (env.pages pg) [] 0).count

/-- Whether scrapePage raises on the given page of such a run. -/
def pageAbortedOf (env : Env) (existing : List BrickPiece) (pg : Nat) : Bool :=
  (processRows env (buildPartsDict existing) (env.pages pg) [] 0).aborted

/-! ### Concrete fixtures for witnesses and counterexamples -/

/-- A fully parseable catalog row. -/
def rowGood : RawRow :=
  ⟨some "Brick 2 x 4", some "3001", some "1", some "1,234", some "56",
   some "7", some "2010-2015", some "14 years"⟩

/-- A row whose rank text is not an integer: `int()` raises inside the piece
dict literal, after the enrichment calls of a cache miss. -/
def rowBadRank : RawRow :=
  ⟨some "Plate 1 x 2", some "3023", some "bad", some "2", some "3",
   some "4", some "2000-2001", some "2"⟩

/-- A row whose color count carries a thousands separator. -/
def rowCommaColors : RawRow :=
  ⟨some "Tile 2 x 2", some "3068", some "5", some "1,234", some "2,345",
   some "1,000", some "1990-2000", some "11"⟩

/-- A row whose year-range text contains a dash but no digits. -/
def rowBadYears : RawRow :=
  ⟨some "Slope 45", some "3040", some "5", some "10", some "20",
   some "30", some "a-b", some "3"⟩

/-- An environment whose lookup always misses: page 1 carries the given rows,
every other page is empty. -/
def mkEnv (rows : List RawRow) : Env :=
  ⟨fun _ => (none, none, none),
   fun pg => if pg = 1 then rows else [],
   fun _ => (none, none, none, none)⟩

/-- An environment whose lookup and detail sources always answer: page 1
carries the given rows, every other page is empty. -/
def mkEnvEnr (rows : List RawRow) : Env :=
  ⟨fun i => (some (String.append "BL" i), some i, some [("BrickLink", [i])]),
   fun pg => if pg = 1 then rows else [],
   fun _ => (some 1, some 2, some 3, some 4)⟩

/-- An environment with countable rows on pages 1-3 and nothing afterwards. -/
def envPages123 : Env :=
  ⟨fun _ => (none, none, none),
   fun pg => if pg ≤ 3 then [rowGood] else [],
   fun _ => (none, none, none, none)⟩

/-- A cached record for id 3001 with enrichment values present and stale
catalog fields. -/
def pOld : BrickPiece :=
  ⟨"old name", "3001", 9, 9, 9, 9, 9, 9, 9, some 7, some 8, some 9,
   some 10, some "rb", some []⟩

/-- A one-entry cache index holding pOld under its id. -/
def cacheC : String → Option BrickPiece :=
  fun i => if i = "3001" then some pOld else none

/-- The merged record a cache hit on rowGood against cacheC produces: catalog
fields from the row, enrichment fields from pOld. -/
def pHit : BrickPiece :=
  ⟨"Brick 2 x 4", "3001", 1, 1234, 56, 7, 2010, 2015, 14, some 7, some 8,
   some 9, some 10, some "rb", some []⟩

/-- The three records of the spec's weighted-statistic scenario: packaging
dimensions (1,1,1), (2,2,2), (3,3,3) cm. -/
def c10Parts : List SpherePart :=
  [⟨some 1, some 1, some 1, 1⟩, ⟨some 2, some 2, some 2, 2⟩,
   ⟨some 3, some 3, some 3, 3⟩]

/-! ### How the row loop depends on the accumulated list

scrapePage only ever appends to `all_pieces` and saves the whole list, so its
outcome from an arbitrary accumulator is the outcome from an empty one with
the accumulator spliced in front; the count, calls and abort flag do not
depend on the accumulator at all. -/

theorem processRows_shift (env : Env) (cache : String → Option BrickPiece)
    (rows : List RawRow) :
    ∀ acc cnt,
      (processRows env cache rows acc cnt).pieces
          = acc ++ (processRows env cache rows [] 0).pieces ∧
      (processRows env cache rows acc cnt).count
          = cnt + (processRows env cache rows [] 0).count ∧
      (processRows env cache rows acc cnt).saves
          = (processRows env cache rows [] 0).saves.map
              (fun d => saveData (acc ++ d.pieces)) ∧
      (processRows env cache rows acc cnt).calls
          = (processRows env cache rows [] 0).calls ∧
      (processRows env cache rows acc cnt).aborted
          = (processRows env cache rows [] 0).aborted := by
  induction rows with
  | nil => intro acc cnt; simp [processRows]
  | cons r rs ih =>
    intro acc cnt
    rcases hpr : processRow env cache r with ⟨o, cs⟩
    cases o with
    | skip =>
      obtain ⟨h1, h2, h3, h4, h5⟩ := ih acc cnt
      simp only [processRows, hpr]
      exact ⟨h1, h2, h3, by rw [h4], by rw [h5]⟩
    | exn => simp [processRows, hpr]
    | ok p =>
      obtain ⟨h1, h2, h3, h4, h5⟩ := ih (acc ++ [p]) (cnt + 1)
      obtain ⟨g1, g2, g3, g4, g5⟩ := ih [p] 1
      simp only [processRows, hpr, List.nil_append]
      refine ⟨?_, ?_, ?_, ?_, ?_⟩
      · rw [h1, g1]; simp
      · rw [h2, g2]; omega
      · rw [h3, g3]; simp [List.map_map, Function.comp, saveData]
      · rw [h4, g4]
      · rw [h5, g5]

theorem mainLoop_shift (env : Env) (cache : String → Option BrickPiece) :
    ∀ fuel page acc,
      (mainLoop env cache fuel page acc).pieces
          = acc ++ (mainLoop env cache fuel page []).pieces ∧
      (mainLoop env cache fuel page acc).saves
          = (mainLoop env cache fuel page []).saves.map
              (fun d => saveData (acc ++ d.pieces)) ∧
      (mainLoop env cache fuel page acc).calls
          = (mainLoop env cache fuel page []).calls ∧
      (mainLoop env cache fuel page acc).fetched
          = (mainLoop env cache fuel page []).fetched ∧
      (mainLoop env cache fuel page acc).pageCounts
          = (mainLoop env cache fuel page []).pageCounts ∧
      (mainLoop env cache fuel page acc).aborted
          = (mainLoop env cache fuel page []).aborted := by
  intro fuel
  induction fuel with
  | zero => intro page acc; simp [mainLoop]
  | succ fuel ih =>
    intro page acc
    obtain ⟨p1, p2, p3, p4, p5⟩ := processRows_shift env cache (env.pages page) acc 0
    simp only [mainLoop]
    rw [p5, p2]
    simp only [Nat.zero_add]
    by_cases hab : (processRows env cache (env.pages page) [] 0).aborted
    · simp [hab, p1, p2, p3, p4, p5]
    · simp only [hab, if_false, Bool.false_eq_true]
      by_cases hcnt : (processRows env cache (env.pages page) [] 0).count = 0
      · simp [hcnt, p1, p2, p3, p4, p5]
      · simp only [hcnt, if_false]
        obtain ⟨q1, q2, q3, q4, q5, q6⟩ :=
          ih (page + 1) ((processRows env cache (env.pages page) acc 0).pieces)
        obtain ⟨w1, w2, w3, w4, w5, w6⟩ :=
          ih (page + 1) ((processRows env cache (env.pages page) [] 0).pieces)
        refine ⟨?_, ?_, ?_, ?_, ?_, ?_⟩
        · rw [q1, w1, p1]; simp
        · rw [q2, w2, p3, p1]
          simp [List.map_map, Function.comp, saveData, List.append_assoc]
        · rw [q3, w3, p4]
        · rw [q4, w4]
        · rw [q5, w5]
        · rw [q6, w6]

/-! ### The save trace is the list of prefixes of the run's pieces -/

theorem prefixesOf_append (a b : List BrickPiece) :
    prefixesOf (a ++ b) = prefixesOf a ++ (prefixesOf b).map (fun t => a ++ t) := by
  induction a with
  | nil => simp [prefixesOf]
  | cons p a ih => simp [prefixesOf, ih, List.map_map, Function.comp]

theorem processRows_saves_prefixes (env : Env) (cache : String → Option BrickPiece)
    (rows : List RawRow) :
    (processRows env cache rows [] 0).saves
      = (prefixesOf (processRows env cache rows [] 0).pieces).map saveData := by
  induction rows with
  | nil => simp [processRows, prefixesOf]
  | cons r rs ih =>
    rcases hpr : processRow env cache r with ⟨o, cs⟩
    cases o with
    | skip => simp only [processRows, hpr]; exact ih
    | exn => simp [processRows, hpr, prefixesOf]
    | ok p =>
      obtain ⟨h1, _, h3, _, _⟩ := processRows_shift env cache rs [p] 1
      simp only [processRows, hpr, List.nil_append]
      rw [h1, h3, ih]
      simp [prefixesOf, List.map_map, Function.comp, saveData]

theorem mainLoop_saves_prefixes (env : Env) (cache : String → Option BrickPiece) :
    ∀ fuel page,
      (mainLoop env cache fuel page []).saves
        = (prefixesOf (mainLoop env cache fuel page []).pieces).map saveData := by
  intro fuel
  induction fuel with
  | zero => intro page; simp [mainLoop, prefixesOf]
  | succ fuel ih =>
    intro page
    simp only [mainLoop]
    by_cases hab : (processRows env cache (env.pages page) [] 0).aborted
    · simp [hab, processRows_saves_prefixes]
    · simp only [hab, if_false, Bool.false_eq_true]
      by_cases hcnt : (processRows env cache (env.pages page) [] 0).count = 0
      · simp [hcnt, processRows_saves_prefixes]
      · simp only [hcnt, if_false]
        obtain ⟨q1, q2, _, _, _, _⟩ :=
          mainLoop_shift env cache fuel (page + 1)
            ((processRows env cache (env.pages page) [] 0).pieces)
        rw [q1, q2, ih (page + 1), processRows_saves_prefixes, prefixesOf_append]
        simp [List.map_map, Function.comp, saveData]

theorem run_saves_prefixes (env : Env) (existing : List BrickPiece) :
    (run env existing).saves = (prefixesOf (run env existing).pieces).map saveData :=
  mainLoop_saves_prefixes env (buildPartsDict existing) MAX_PAGES 1

theorem prefixesOf_eq_map_range (l : List BrickPiece) :
    prefixesOf l = (List.range l.length).map (fun i => l.take (i + 1)) := by
  induction l with
  | nil => simp [prefixesOf]
  | cons p l ih =>
    simp [prefixesOf, ih, List.range_succ_eq_map, List.map_map, Function.comp]

theorem prefixesOf_length (l : List BrickPiece) :
    (prefixesOf l).length = l.length := by
  rw [prefixesOf_eq_map_range]; simp

theorem prefixesOf_getLast (l : List BrickPiece) (h : l ≠ []) :
    (prefixesOf l).getLast? = some l := by
  rw [prefixesOf_eq_map_range, List.getLast?_eq_getElem?]
  have hlen : 0 < l.length := List.length_pos.mpr h
  simp only [List.length_map, List.length_range]
  rw [List.getElem?_map, List.getElem?_range (by omega : l.length - 1 < l.length)]
  simp only [Option.map_some']
  rw [show l.length - 1 + 1 = l.length by omega, List.take_length]

/-! ### Per-row facts -/

theorem processRow_skip_shape (env : Env) (cache : String → Option BrickPiece)
    (r : RawRow) (cs : List Call)
    (h : processRow env cache r = (RowOutcome.skip, cs)) :
    cs = [] ∧ (r.part_name_elem = none ∨ r.part_num_elem = none) := by
  rcases hn : r.part_name_elem with _ | nm
  · simp only [processRow, hn] at h
    exact ⟨(Prod.mk.injEq _ _ _ _ ▸ h).2.symm, Or.inl rfl⟩
  rcases hm : r.part_num_elem with _ | pid
  · simp only [processRow, hn, hm] at h
    exact ⟨(Prod.mk.injEq _ _ _ _ ▸ h).2.symm, Or.inr rfl⟩
  exfalso
  rcases hY : parseYears (getTextStrip r.years_elem "") with _ | ⟨bY, eY⟩
  · simp [processRow, hn, hm, hY] at h
  rcases hT : parseTotalYears r.total_years_elem with _ | tY
  · simp [processRow, hn, hm, hY, hT] at h
  rcases hc : cache (pyStrip pid) with _ | ex
  · rcases hL : env.lookup (pyStrip pid) with ⟨blid, rb, ext⟩
    cases blid with
    | none =>
      simp only [processRow, hn, hm, hY, hT, hc, hL] at h
      rcases hC : parseRowCounts r with _ | ⟨rk, np2, ns2, nc2⟩ <;>
        simp [buildPiece, hC] at h
    | some b =>
      rcases hD : env.detail b with ⟨w, dx, dy, dz⟩
      simp only [processRow, hn, hm, hY, hT, hc, hL, hD] at h
      rcases hC : parseRowCounts r with _ | ⟨rk, np2, ns2, nc2⟩ <;>
        simp [buildPiece, hC] at h
  · simp only [processRow, hn, hm, hY, hT, hc] at h
    rcases hC : parseRowCounts r with _ | ⟨rk, np2, ns2, nc2⟩ <;>
      simp [buildPiece, hC] at h

theorem processRow_skip_of (env : Env) (cache : String → Option BrickPiece)
    (r : RawRow) (h : r.part_name_elem = none ∨ r.part_num_elem = none) :
    processRow env cache r = (RowOutcome.skip, []) := by
  rcases hn : r.part_name_elem with _ | nm
  · simp [processRow, hn]
  rcases hm : r.part_num_elem with _ | pid
  · simp [processRow, hn, hm]
  rcases h with h | h
  · rw [hn] at h; exact absurd h (by simp)
  · rw [hm] at h; exact absurd h (by simp)

theorem processRow_ok_enrich (env : Env) (cache : String → Option BrickPiece)
    (r : RawRow) (p : BrickPiece) (cs : List Call)
    (h : processRow env cache r = (RowOutcome.ok p, cs)) :
    p.id = rowId r ∧ enrichOf p = freshEnrich env cache p.id := by
  rcases hn : r.part_name_elem with _ | nm
  · simp [processRow, hn] at h
  rcases hm : r.part_num_elem with _ | pid
  · simp [processRow, hn, hm] at h
  have hid : rowId r = (pyStrip pid) := by simp [rowId, hm]
  rcases hY : parseYears (getTextStrip r.years_elem "") with _ | ⟨bY, eY⟩
  · simp [processRow, hn, hm, hY] at h
  rcases hT : parseTotalYears r.total_years_elem with _ | tY
  · simp [processRow, hn, hm, hY, hT] at h
  rcases hc : cache (pyStrip pid) with _ | ex
  · rcases hL : env.lookup (pyStrip pid) with ⟨blid, rb, ext⟩
    cases blid with
    | none =>
      simp only [processRow, hn, hm, hY, hT, hc, hL] at h
      rcases hC : parseRowCounts r with _ | ⟨rk, np2, ns2, nc2⟩
      · simp [buildPiece, hC] at h
      · simp only [buildPiece, hC, Prod.mk.injEq, RowOutcome.ok.injEq] at h
        obtain ⟨hp, -⟩ := h
        subst hp
        exact ⟨hid.symm, by simp [enrichOf, freshEnrich, hid, hc, hL]⟩
    | some b =>
      rcases hD : env.detail b with ⟨w, dx, dy, dz⟩
      simp only [processRow, hn, hm, hY, hT, hc, hL, hD] at h
      rcases hC : parseRowCounts r with _ | ⟨rk, np2, ns2, nc2⟩
      · simp [buildPiece, hC] at h
      · simp only [buildPiece, hC, Prod.mk.injEq, RowOutcome.ok.injEq] at h
        obtain ⟨hp, -⟩ := h
        subst hp
        exact ⟨hid.symm, by simp [enrichOf, freshEnrich, hid, hc, hL, hD]⟩
  · simp only [processRow, hn, hm, hY, hT, hc] at h
    rcases hC : parseRowCounts r with _ | ⟨rk, np2, ns2, nc2⟩
    · simp [buildPiece, hC] at h
    · simp only [buildPiece, hC, Prod.mk.injEq, RowOutcome.ok.injEq] at h
      obtain ⟨hp, -⟩ := h
      subst hp
      exact ⟨hid.symm, by simp [enrichOf, freshEnrich, hid, hc]⟩

/-- The cache-hit simulation step: if a row produced piece `p` against the
first cache, and a second cache maps `p.id` to a record carrying exactly the
enrichment values the first run would assign to that id, then against the
second cache the same row produces the same `p` as a cache hit, with no calls. -/
theorem processRow_sim (env : Env) (cache1 cache2 : String → Option BrickPiece)
    (r : RawRow) (p : BrickPiece) (cs : List Call) (q : BrickPiece)
    (h : processRow env cache1 r = (RowOutcome.ok p, cs))
    (hq : cache2 p.id = some q)
    (hqe : enrichOf q = freshEnrich env cache1 p.id) :
    processRow env cache2 r = (RowOutcome.ok p, []) := by
  rcases hn : r.part_name_elem with _ | nm
  · simp [processRow, hn] at h
  rcases hm : r.part_num_elem with _ | pid
  · simp [processRow, hn, hm] at h
  have hid : rowId r = (pyStrip pid) := by simp [rowId, hm]
  rcases hY : parseYears (getTextStrip r.years_elem "") with _ | ⟨bY, eY⟩
  · simp [processRow, hn, hm, hY] at h
  rcases hT : parseTotalYears r.total_years_elem with _ | tY
  · simp [processRow, hn, hm, hY, hT] at h
  have henr : p.id = (pyStrip pid) ∧ enrichOf p = freshEnrich env cache1 p.id := by
    have := processRow_ok_enrich env cache1 r p cs h
    exact ⟨hid ▸ this.1, this.2⟩
  obtain ⟨hpid, hpe⟩ := henr
  rw [hpid] at hq hqe
  -- the second run takes the cache-hit branch at (pyStrip pid)
  rcases hC : parseRowCounts r with _ | ⟨rk, np2, ns2, nc2⟩
  · exfalso
    rcases hc : cache1 (pyStrip pid) with _ | ex
    · rcases hL : env.lookup (pyStrip pid) with ⟨blid, rb, ext⟩
      cases blid with
      | none =>
        simp [processRow, hn, hm, hY, hT, hc, hL, buildPiece, hC] at h
      | some b =>
        rcases hD : env.detail b with ⟨w, dx, dy, dz⟩
        simp [processRow, hn, hm, hY, hT, hc, hL, hD, buildPiece, hC] at h
    · simp [processRow, hn, hm, hY, hT, hc, buildPiece, hC] at h
  · -- p is the record built from the row from some enrichment tuple e1
    have hbuild : ∀ e, buildPiece nm (pyStrip pid) bY eY tY r e =
        RowOutcome.ok
          { name := (pyStrip nm), id := (pyStrip pid), overall_rank := rk, num_pieces := np2,
            num_sets := ns2, num_colors := nc2, begin_year := bY, end_year := eY,
            total_years := tY, weight := e.1, pack_dim_x := e.2.1,
            pack_dim_y := e.2.2.1, pack_dim_z := e.2.2.2.1,
            rebrickable_part_num := e.2.2.2.2.1, external_ids := e.2.2.2.2.2 } := by
      intro e; simp [buildPiece, hC]
    have hexists : ∃ e1, buildPiece nm (pyStrip pid) bY eY tY r e1 = RowOutcome.ok p := by
      rcases hc : cache1 (pyStrip pid) with _ | ex
      · rcases hL : env.lookup (pyStrip pid) with ⟨blid, rb, ext⟩
        cases blid with
        | none =>
          simp only [processRow, hn, hm, hY, hT, hc, hL, Prod.mk.injEq] at h
          exact ⟨_, h.1⟩
        | some b =>
          rcases hD : env.detail b with ⟨w, dx, dy, dz⟩
          simp only [processRow, hn, hm, hY, hT, hc, hL, hD, Prod.mk.injEq] at h
          exact ⟨_, h.1⟩
      · simp only [processRow, hn, hm, hY, hT, hc, Prod.mk.injEq] at h
        exact ⟨_, h.1⟩
    obtain ⟨e1, he1⟩ := hexists
    rcases e1 with ⟨e1w, e1x, e1y, e1z, e1r, e1e⟩
    rw [hbuild] at he1
    have hp : p = ⟨(pyStrip nm), (pyStrip pid), rk, np2, ns2, nc2, bY, eY, tY,
        e1w, e1x, e1y, e1z, e1r, e1e⟩ := by
      injection he1 with h2; exact h2.symm
    have hqp : enrichOf q = enrichOf p := by
      rw [hpid] at hpe
      exact hqe.trans hpe.symm
    rw [hp] at hqp
    simp only [enrichOf, Prod.mk.injEq] at hqp
    obtain ⟨c1, c2, c3, c4, c5, c6⟩ := hqp
    simp only [processRow, hn, hm, hY, hT, hq]
    rw [hbuild, hp]
    simp [c1, c2, c3, c4, c5, c6]

/-! ### The id-indexed cache dictionary -/

theorem buildPartsDict_gen (l : List BrickPiece) :
    ∀ (d : String → Option BrickPiece) (i : String) (q : BrickPiece),
      (l.foldl (fun d p => fun j => if j = p.id then some p else d j) d) i = some q →
      (q ∈ l ∧ q.id = i) ∨ d i = some q := by
  induction l with
  | nil => intro d i q h; exact Or.inr h
  | cons p l ih =>
    intro d i q h
    rcases ih _ i q h with ⟨hmem, hi⟩ | hbase
    · exact Or.inl ⟨List.mem_cons_of_mem _ hmem, hi⟩
    · simp only [] at hbase
      by_cases hip : i = p.id
      · rw [if_pos hip] at hbase
        injection hbase with hpq
        cases hpq
        exact Or.inl ⟨List.mem_cons_self _ _, hip.symm⟩
      · rw [if_neg hip] at hbase
        exact Or.inr hbase

theorem buildPartsDict_mem_some (l : List BrickPiece) :
    ∀ (d : String → Option BrickPiece) (i : String),
      ((∃ p ∈ l, p.id = i) ∨ (d i).isSome) →
      ((l.foldl (fun d p => fun j => if j = p.id then some p else d j) d) i).isSome := by
  induction l with
  | nil =>
    intro d i h
    rcases h with ⟨p, hp, _⟩ | h
    · exact absurd hp (List.not_mem_nil p)
    · exact h
  | cons p l ih =>
    intro d i h
    apply ih
    rcases h with ⟨p2, hp2, hi⟩ | h
    · rcases List.mem_cons.mp hp2 with rfl | hmem
      · exact Or.inr (by simp [← hi])
      · exact Or.inl ⟨p2, hmem, hi⟩
    · right
      by_cases hip : i = p.id
      · simp [hip]
      · simpa [hip] using h

theorem buildPartsDict_some (l : List BrickPiece) (i : String) (q : BrickPiece)
    (h : buildPartsDict l i = some q) : q ∈ l ∧ q.id = i := by
  rcases buildPartsDict_gen l (fun _ => none) i q h with hg | hg
  · exact hg
  · exact absurd hg (by simp)

theorem buildPartsDict_of_mem (l : List BrickPiece) (p : BrickPiece) (hp : p ∈ l) :
    ∃ q, buildPartsDict l p.id = some q ∧ q ∈ l ∧ q.id = p.id := by
  have := buildPartsDict_mem_some l (fun _ => none) p.id (Or.inl ⟨p, hp, rfl⟩)
  rcases Option.isSome_iff_exists.mp this with ⟨q, hq⟩
  exact ⟨q, hq, buildPartsDict_some l p.id q hq⟩

/-! ### Where pieces come from -/

theorem processRows_mem (env : Env) (cache : String → Option BrickPiece)
    (rows : List RawRow) :
    ∀ acc cnt p, p ∈ (processRows env cache rows acc cnt).pieces →
      p ∈ acc ∨ ∃ r ∈ rows, ∃ cs, processRow env cache r = (RowOutcome.ok p, cs) := by
  induction rows with
  | nil => intro acc cnt p hp; simp only [processRows] at hp; exact Or.inl hp
  | cons r rs ih =>
    intro acc cnt p hp
    rcases hpr : processRow env cache r with ⟨o, cs⟩
    cases o with
    | skip =>
      simp only [processRows, hpr] at hp
      rcases ih _ _ _ hp with h | ⟨r2, hr2, cs2, h2⟩
      · exact Or.inl h
      · exact Or.inr ⟨r2, List.mem_cons_of_mem _ hr2, cs2, h2⟩
    | exn =>
      simp only [processRows, hpr] at hp
      exact Or.inl hp
    | ok p2 =>
      simp only [processRows, hpr] at hp
      rcases ih _ _ _ hp with h | ⟨r2, hr2, cs2, h2⟩
      · rcases List.mem_append.mp h with h | h
        · exact Or.inl h
        · rcases List.mem_singleton.mp h with rfl
          exact Or.inr ⟨r, List.mem_cons_self _ _, cs, hpr⟩
      · exact Or.inr ⟨r2, List.mem_cons_of_mem _ hr2, cs2, h2⟩

theorem mainLoop_mem (env : Env) (cache : String → Option BrickPiece) :
    ∀ fuel page acc p, p ∈ (mainLoop env cache fuel page acc).pieces →
      p ∈ acc ∨ ∃ pg, ∃ r ∈ env.pages pg, ∃ cs,
        processRow env cache r = (RowOutcome.ok p, cs) := by
  intro fuel
  induction fuel with
  | zero => intro page acc p hp; simp only [mainLoop] at hp; exact Or.inl hp
  | succ fuel ih =>
    intro page acc p hp
    simp only [mainLoop] at hp
    split at hp
    · rcases processRows_mem env cache _ _ _ p hp with h | ⟨r2, hr2, cs2, h2⟩
      · exact Or.inl h
      · exact Or.inr ⟨page, r2, hr2, cs2, h2⟩
    · split at hp
      · rcases processRows_mem env cache _ _ _ p hp with h | ⟨r2, hr2, cs2, h2⟩
        · exact Or.inl h
        · exact Or.inr ⟨page, r2, hr2, cs2, h2⟩
      · rcases ih _ _ _ hp with h | ⟨pg, r2, hr2, cs2, h2⟩
        · rcases processRows_mem env cache _ _ _ p h with h3 | ⟨r2, hr2, cs2, h2⟩
          · exact Or.inl h3
          · exact Or.inr ⟨page, r2, hr2, cs2, h2⟩
        · exact Or.inr ⟨pg, r2, hr2, cs2, h2⟩

/-- A page whose loop neither aborted nor counted any row made no slow
adapter call: every row of such a page was skipped. -/
theorem processRows_calls_nil (env : Env) (cache : String → Option BrickPiece)
    (rows : List RawRow) :
    ∀ acc cnt, (processRows env cache rows acc cnt).aborted = false →
      (processRows env cache rows acc cnt).count = cnt →
      (processRows env cache rows acc cnt).calls = [] := by
  induction rows with
  | nil => intro acc cnt _ _; simp [processRows]
  | cons r rs ih =>
    intro acc cnt hab hcnt
    rcases hpr : processRow env cache r with ⟨o, cs⟩
    cases o with
    | skip =>
      obtain ⟨hcs, -⟩ := processRow_skip_shape env cache r cs hpr
      simp only [processRows, hpr] at hab hcnt ⊢
      rw [hcs, List.nil_append]
      exact ih acc cnt hab hcnt
    | exn => simp only [processRows, hpr] at hab; exact absurd hab (by simp)
    | ok p =>
      exfalso
      simp only [processRows, hpr] at hcnt
      obtain ⟨-, h2, -, -, -⟩ := processRows_shift env cache rs (acc ++ [p]) (cnt + 1)
      rw [h2] at hcnt
      omega

/-! ### Step equations for the page loop -/

theorem mainLoop_succ_abort (env : Env) (cache : String → Option BrickPiece)
    (fuel page : Nat) (acc : List BrickPiece)
    (h : (processRows env cache (env.pages page) acc 0).aborted = true) :
    mainLoop env cache (fuel + 1) page acc =
      ⟨(processRows env cache (env.pages page) acc 0).pieces,
       (processRows env cache (env.pages page) acc 0).saves,
       (processRows env cache (env.pages page) acc 0).calls,
       [page], [(processRows env cache (env.pages page) acc 0).count], true⟩ := by
  simp [mainLoop, h]

theorem mainLoop_succ_stop (env : Env) (cache : String → Option BrickPiece)
    (fuel page : Nat) (acc : List BrickPiece)
    (hab : (processRows env cache (env.pages page) acc 0).aborted = false)
    (hcnt : (processRows env cache (env.pages page) acc 0).count = 0) :
    mainLoop env cache (fuel + 1) page acc =
      ⟨(processRows env cache (env.pages page) acc 0).pieces,
       (processRows env cache (env.pages page) acc 0).saves,
       (processRows env cache (env.pages page) acc 0).calls,
       [page], [(processRows env cache (env.pages page) acc 0).count], false⟩ := by
  simp [mainLoop, hab, hcnt]

theorem mainLoop_succ_cont (env : Env) (cache : String → Option BrickPiece)
    (fuel page : Nat) (acc : List BrickPiece)
    (hab : (processRows env cache (env.pages page) acc 0).aborted = false)
    (hcnt : (processRows env cache (env.pages page) acc 0).count ≠ 0) :
    mainLoop env cache (fuel + 1) page acc =
      ⟨(mainLoop env cache fuel (page + 1)
          (processRows env cache (env.pages page) acc 0).pieces).pieces,
       (processRows env cache (env.pages page) acc 0).saves ++
         (mainLoop env cache fuel (page + 1)
           (processRows env cache (env.pages page) acc 0).pieces).saves,
       (processRows env cache (env.pages page) acc 0).calls ++
         (mainLoop env cache fuel (page + 1)
           (processRows env cache (env.pages page) acc 0).pieces).calls,
       page :: (mainLoop env cache fuel (page + 1)
           (processRows env cache (env.pages page) acc 0).pieces).fetched,
       (processRows env cache (env.pages page) acc 0).count ::
         (mainLoop env cache fuel (page + 1)
           (processRows env cache (env.pages page) acc 0).pieces).pageCounts,
       (mainLoop env cache fuel (page + 1)
           (processRows env cache (env.pages page) acc 0).pieces).aborted⟩ := by
  simp [mainLoop, hab, hcnt]

/-! ### Simulation of a run against a cache that already carries every
enrichment value the run would compute -/

theorem processRows_sim (env : Env) (cache1 cache2 : String → Option BrickPiece)
    (rows : List RawRow) :
    ∀ acc cnt,
      (processRows env cache1 rows acc cnt).aborted = false →
      (∀ p ∈ (processRows env cache1 rows [] 0).pieces,
        ∃ q, cache2 p.id = some q ∧ enrichOf q = freshEnrich env cache1 p.id) →
      (processRows env cache2 rows acc cnt).pieces
          = (processRows env cache1 rows acc cnt).pieces ∧
      (processRows env cache2 rows acc cnt).count
          = (processRows env cache1 rows acc cnt).count ∧
      (processRows env cache2 rows acc cnt).saves
          = (processRows env cache1 rows acc cnt).saves ∧
      (processRows env cache2 rows acc cnt).calls = [] ∧
      (processRows env cache2 rows acc cnt).aborted = false := by
  induction rows with
  | nil => intro acc cnt _ _; simp [processRows]
  | cons r rs ih =>
    intro acc cnt hab hmem
    rcases hpr : processRow env cache1 r with ⟨o, cs⟩
    cases o with
    | skip =>
      obtain ⟨hcs, hsk⟩ := processRow_skip_shape env cache1 r cs hpr
      have hpr2 : processRow env cache2 r = (RowOutcome.skip, []) :=
        processRow_skip_of env cache2 r hsk
      simp only [processRows, hpr] at hab hmem
      obtain ⟨i1, i2, i3, i4, i5⟩ := ih acc cnt hab hmem
      simp only [processRows, hpr, hpr2]
      exact ⟨i1, i2, i3, by rw [List.nil_append, i4], i5⟩
    | exn =>
      simp only [processRows, hpr] at hab
      exact absurd hab (by simp)
    | ok p =>
      have hp_mem : p ∈ (processRows env cache1 (r :: rs) [] 0).pieces := by
        simp only [processRows, hpr, List.nil_append]
        obtain ⟨g1, -, -, -, -⟩ := processRows_shift env cache1 rs [p] 1
        rw [g1]
        exact List.mem_append.mpr (Or.inl (List.mem_singleton.mpr rfl))
      obtain ⟨q, hq, hqe⟩ := hmem p hp_mem
      have hpr2 : processRow env cache2 r = (RowOutcome.ok p, []) :=
        processRow_sim env cache1 cache2 r p cs q hpr hq hqe
      have hab2 : (processRows env cache1 rs (acc ++ [p]) (cnt + 1)).aborted = false := by
        simp only [processRows, hpr] at hab; exact hab
      have hmem2 : ∀ p2 ∈ (processRows env cache1 rs [] 0).pieces,
          ∃ q2, cache2 p2.id = some q2 ∧ enrichOf q2 = freshEnrich env cache1 p2.id := by
        intro p2 hp2
        apply hmem
        simp only [processRows, hpr, List.nil_append]
        obtain ⟨g1, -, -, -, -⟩ := processRows_shift env cache1 rs [p] 1
        rw [g1]
        exact List.mem_append.mpr (Or.inr hp2)
      obtain ⟨i1, i2, i3, i4, i5⟩ := ih (acc ++ [p]) (cnt + 1) hab2 hmem2
      simp only [processRows, hpr, hpr2]
      exact ⟨i1, i2, by rw [i3], by rw [List.nil_append, i4], i5⟩

theorem mainLoop_sim (env : Env) (cache1 cache2 : String → Option BrickPiece) :
    ∀ fuel page acc,
      (mainLoop env cache1 fuel page acc).aborted = false →
      (∀ p ∈ (mainLoop env cache1 fuel page []).pieces,
        ∃ q, cache2 p.id = some q ∧ enrichOf q = freshEnrich env cache1 p.id) →
      (mainLoop env cache2 fuel page acc).pieces
          = (mainLoop env cache1 fuel page acc).pieces ∧
      (mainLoop env cache2 fuel page acc).saves
          = (mainLoop env cache1 fuel page acc).saves ∧
      (mainLoop env cache2 fuel page acc).calls = [] ∧
      (mainLoop env cache2 fuel page acc).fetched
          = (mainLoop env cache1 fuel page acc).fetched ∧
      (mainLoop env cache2 fuel page acc).pageCounts
          = (mainLoop env cache1 fuel page acc).pageCounts ∧
      (mainLoop env cache2 fuel page acc).aborted = false := by
  intro fuel
  induction fuel with
  | zero => intro page acc _ _; simp [mainLoop]
  | succ fuel ih =>
    intro page acc hab hmem
    obtain ⟨sh1, sh2, sh3, sh4, sh5⟩ := processRows_shift env cache1 (env.pages page) acc 0
    cases hab0 : (processRows env cache1 (env.pages page) [] 0).aborted with
    | true =>
      exfalso
      have habacc : (processRows env cache1 (env.pages page) acc 0).aborted = true := by
        rw [sh5, hab0]
      rw [mainLoop_succ_abort env cache1 fuel page acc habacc] at hab
      simp at hab
    | false =>
      have habacc : (processRows env cache1 (env.pages page) acc 0).aborted = false := by
        rw [sh5, hab0]
      have hcntacc : (processRows env cache1 (env.pages page) acc 0).count
          = (processRows env cache1 (env.pages page) [] 0).count := by
        rw [sh2]; simp
      by_cases hcnt0 : (processRows env cache1 (env.pages page) [] 0).count = 0
      · -- the run stops at this page
        have hmem0 : ∀ p ∈ (processRows env cache1 (env.pages page) [] 0).pieces,
            ∃ q, cache2 p.id = some q ∧ enrichOf q = freshEnrich env cache1 p.id := by
          intro p hp
          apply hmem
          rw [mainLoop_succ_stop env cache1 fuel page []
            (by simpa using (processRows_shift env cache1 (env.pages page) [] 0).2.2.2.2.symm.trans hab0)
            (by simpa using (processRows_shift env cache1 (env.pages page) [] 0).2.1.symm.trans hcnt0)]
          exact hp
        obtain ⟨s1, s2, s3, s4, s5⟩ :=
          processRows_sim env cache1 cache2 (env.pages page) acc 0 habacc hmem0
        have e1 := mainLoop_succ_stop env cache1 fuel page acc habacc
          (hcntacc.trans hcnt0)
        have e2 := mainLoop_succ_stop env cache2 fuel page acc s5
          (s2.trans (hcntacc.trans hcnt0))
        rw [e1, e2]
        exact ⟨s1, s3, s4, rfl, by rw [s2], rfl⟩
      · -- the run continues to the next page
        have e1 := mainLoop_succ_cont env cache1 fuel page acc habacc
          (by rw [hcntacc]; exact hcnt0)
        have e10 := mainLoop_succ_cont env cache1 fuel page []
          (by simpa using (processRows_shift env cache1 (env.pages page) [] 0).2.2.2.2.symm.trans hab0)
          (by simpa using fun h =>
            hcnt0 (by simpa using ((processRows_shift env cache1 (env.pages page) [] 0).2.1.symm.trans h)))
        have hmem0 : ∀ p ∈ (processRows env cache1 (env.pages page) [] 0).pieces,
            ∃ q, cache2 p.id = some q ∧ enrichOf q = freshEnrich env cache1 p.id := by
          intro p hp
          apply hmem
          rw [e10]
          obtain ⟨m1, -, -, -, -, -⟩ :=
            mainLoop_shift env cache1 fuel (page + 1)
              ((processRows env cache1 (env.pages page) [] 0).pieces)
          show p ∈ (mainLoop env cache1 fuel (page + 1)
            ((processRows env cache1 (env.pages page) [] 0).pieces)).pieces
          rw [m1]
          exact List.mem_append.mpr (Or.inl hp)
        obtain ⟨s1, s2, s3, s4, s5⟩ :=
          processRows_sim env cache1 cache2 (env.pages page) acc 0 habacc hmem0
        have hmemB : ∀ p ∈ (mainLoop env cache1 fuel (page + 1) []).pieces,
            ∃ q, cache2 p.id = some q ∧ enrichOf q = freshEnrich env cache1 p.id := by
          intro p hp
          apply hmem
          rw [e10]
          obtain ⟨m1, -, -, -, -, -⟩ :=
            mainLoop_shift env cache1 fuel (page + 1)
              ((processRows env cache1 (env.pages page) [] 0).pieces)
          show p ∈ (mainLoop env cache1 fuel (page + 1)
            ((processRows env cache1 (env.pages page) [] 0).pieces)).pieces
          rw [m1]
          exact List.mem_append.mpr (Or.inr hp)
        have habrest : (mainLoop env cache1 fuel (page + 1)
            ((processRows env cache1 (env.pages page) acc 0).pieces)).aborted = false := by
          rw [e1] at hab
          exact hab
        obtain ⟨i1, i2, i3, i4, i5, i6⟩ :=
          ih (page + 1) ((processRows env cache1 (env.pages page) acc 0).pieces)
            habrest hmemB
        have e2 := mainLoop_succ_cont env cache2 fuel page acc s5
          (by rw [s2, hcntacc]; exact hcnt0)
        rw [e1, e2, s1]
        exact ⟨i1, by rw [s3, i2], by rw [s4, List.nil_append, i3],
          by rw [i4], by rw [s2, i5], i6⟩

/-! ### Top-level consequences for a full run -/

theorem run_pieces_enrich (env : Env) (existing : List BrickPiece) (p : BrickPiece)
    (hp : p ∈ (run env existing).pieces) :
    enrichOf p = freshEnrich env (buildPartsDict existing) p.id := by
  rcases mainLoop_mem env (buildPartsDict existing) MAX_PAGES 1 [] p hp with
    h | ⟨pg, r, hr, cs, h⟩
  · exact absurd h (List.not_mem_nil p)
  · exact (processRow_ok_enrich env _ r p cs h).2

theorem run_cache_good (env : Env) (existing : List BrickPiece) (p : BrickPiece)
    (hp : p ∈ (run env existing).pieces) :
    ∃ q, buildPartsDict (run env existing).pieces p.id = some q ∧
      enrichOf q = freshEnrich env (buildPartsDict existing) p.id := by
  obtain ⟨q, hq, hqmem, hqid⟩ := buildPartsDict_of_mem _ p hp
  refine ⟨q, hq, ?_⟩
  rw [run_pieces_enrich env existing q hqmem, hqid]

/-- A non-aborted first run followed by a second run whose cache is the first
run's final piece list: the second run retraces the first exactly, with every
row a cache hit. -/
theorem run_sim (env : Env) (existing : List BrickPiece)
    (hab : (run env existing).aborted = false) :
    (run env (run env existing).pieces).pieces = (run env existing).pieces ∧
    (run env (run env existing).pieces).saves = (run env existing).saves ∧
    (run env (run env existing).pieces).calls = [] ∧
    (run env (run env existing).pieces).aborted = false := by
  obtain ⟨s1, s2, s3, -, -, s6⟩ :=
    mainLoop_sim env (buildPartsDict existing) (buildPartsDict (run env existing).pieces)
      MAX_PAGES 1 [] hab (fun p hp => run_cache_good env existing p hp)
  exact ⟨s1, s2, s3, s6⟩

theorem processRows_length_eq_count (env : Env) (cache : String → Option BrickPiece)
    (rows : List RawRow) :
    (processRows env cache rows [] 0).pieces.length
      = (processRows env cache rows [] 0).count := by
  induction rows with
  | nil => simp [processRows]
  | cons r rs ih =>
    rcases hpr : processRow env cache r with ⟨o, cs⟩
    cases o with
    | skip => simp only [processRows, hpr]; exact ih
    | exn => simp [processRows, hpr]
    | ok p =>
      obtain ⟨g1, g2, -, -, -⟩ := processRows_shift env cache rs [p] 1
      simp only [processRows, hpr, List.nil_append]
      rw [g1, g2, List.length_append, ih]
      simp [Nat.add_comm]

theorem prefixesOf_eq_nil (l : List BrickPiece) : prefixesOf l = [] ↔ l = [] := by
  cases l <;> simp [prefixesOf]

/-- A run that appended no piece and did not abort made no slow-adapter call:
its first page had only skipped rows. -/
theorem mainLoop_calls_nil (env : Env) (cache : String → Option BrickPiece)
    (fuel page : Nat)
    (hab : (mainLoop env cache (fuel + 1) page []).aborted = false)
    (hp : (mainLoop env cache (fuel + 1) page []).pieces = []) :
    (mainLoop env cache (fuel + 1) page []).calls = [] := by
  cases hab0 : (processRows env cache (env.pages page) [] 0).aborted with
  | true =>
    rw [mainLoop_succ_abort env cache fuel page [] hab0] at hab
    simp at hab
  | false =>
    by_cases hcnt : (processRows env cache (env.pages page) [] 0).count = 0
    · rw [mainLoop_succ_stop env cache fuel page [] hab0 hcnt] at hp ⊢
      exact processRows_calls_nil env cache (env.pages page) [] 0 hab0 hcnt
    · exfalso
      rw [mainLoop_succ_cont env cache fuel page [] hab0 hcnt] at hp
      obtain ⟨m1, -, -, -, -, -⟩ :=
        mainLoop_shift env cache fuel (page + 1)
          ((processRows env cache (env.pages page) [] 0).pieces)
      simp only at hp
      rw [m1, List.append_eq_nil] at hp
      have := processRows_length_eq_count env cache (env.pages page)
      rw [hp.1] at this
      exact hcnt (by simpa using this.symm)

theorem run_calls_nil_of_no_pieces (env : Env) (existing : List BrickPiece)
    (hab : (run env existing).aborted = false)
    (hp : (run env existing).pieces = []) :
    (run env existing).calls = [] := by
  have hMP : MAX_PAGES = 99 + 1 := rfl
  unfold run at hab hp ⊢
  rw [hMP] at hab hp ⊢
  exact mainLoop_calls_nil env (buildPartsDict existing) 99 1 hab hp

theorem run_saves_getLast (env : Env) (existing : List BrickPiece)
    (h : (run env existing).pieces ≠ []) :
    (run env existing).saves.getLast? = some (saveData (run env existing).pieces) := by
  rw [run_saves_prefixes, List.getLast?_map, prefixesOf_getLast _ h]
  rfl

theorem run_saves_nil_iff (env : Env) (existing : List BrickPiece) :
    (run env existing).saves = [] ↔ (run env existing).pieces = [] := by
  rw [run_saves_prefixes, List.map_eq_nil_iff, prefixesOf_eq_nil]

/-! ### Countable rows and the ids a run can append -/

theorem processRow_ok_rowOk (env : Env) (cache : String → Option BrickPiece)
    (r : RawRow) (p : BrickPiece) (cs : List Call)
    (h : processRow env cache r = (RowOutcome.ok p, cs)) : rowOk r = true := by
  rcases hn : r.part_name_elem with _ | nm
  · simp [processRow, hn] at h
  rcases hm : r.part_num_elem with _ | pid
  · simp [processRow, hn, hm] at h
  rcases hY : parseYears (getTextStrip r.years_elem "") with _ | ⟨bY, eY⟩
  · simp [processRow, hn, hm, hY] at h
  rcases hT : parseTotalYears r.total_years_elem with _ | tY
  · simp [processRow, hn, hm, hY, hT] at h
  rcases hC : parseRowCounts r with _ | v
  · exfalso
    rcases hc : cache (pyStrip pid) with _ | ex
    · rcases hL : env.lookup (pyStrip pid) with ⟨blid, rb, ext⟩
      cases blid with
      | none => simp [processRow, hn, hm, hY, hT, hc, hL, buildPiece, hC] at h
      | some b =>
        rcases hD : env.detail b with ⟨w, dx, dy, dz⟩
        simp [processRow, hn, hm, hY, hT, hc, hL, hD, buildPiece, hC] at h
    · simp [processRow, hn, hm, hY, hT, hc, buildPiece, hC] at h
  · simp [rowOk, hn, hm, hY, hT, hC]

theorem processRow_ok_of_rowOk (env : Env) (cache : String → Option BrickPiece)
    (r : RawRow) (h : rowOk r = true) :
    ∃ p cs, processRow env cache r = (RowOutcome.ok p, cs) := by
  simp only [rowOk, Bool.and_eq_true, Option.isSome_iff_exists] at h
  obtain ⟨⟨⟨⟨⟨nm, hn⟩, pid, hm⟩, yv, hY⟩, tY, hT⟩, v, hC⟩ := h
  rcases yv with ⟨bY, eY⟩
  rcases v with ⟨rk, np2, ns2, nc2⟩
  rcases hres : processRow env cache r with ⟨o, cs⟩
  cases o with
  | ok p => exact ⟨p, cs, by simp [hres]⟩
  | skip =>
    obtain ⟨-, hsk⟩ := processRow_skip_shape env cache r cs hres
    rcases hsk with hsk | hsk
    · rw [hn] at hsk; exact absurd hsk (by simp)
    · rw [hm] at hsk; exact absurd hsk (by simp)
  | exn =>
    exfalso
    rcases hc : cache (pyStrip pid) with _ | ex
    · rcases hL : env.lookup (pyStrip pid) with ⟨blid, rb, ext⟩
      cases blid with
      | none => simp [processRow, hn, hm, hY, hT, hc, hL, buildPiece, hC] at hres
      | some b =>
        rcases hD : env.detail b with ⟨w, dx, dy, dz⟩
        simp [processRow, hn, hm, hY, hT, hc, hL, hD, buildPiece, hC] at hres
    · simp [processRow, hn, hm, hY, hT, hc, buildPiece, hC] at hres

theorem processRow_not_ok_rowOk (env : Env) (cache : String → Option BrickPiece)
    (r : RawRow) (o : RowOutcome) (cs : List Call)
    (h : processRow env cache r = (o, cs)) (ho : ∀ p, o ≠ RowOutcome.ok p) :
    rowOk r = false := by
  cases hok : rowOk r with
  | false => rfl
  | true =>
    obtain ⟨p, cs2, h2⟩ := processRow_ok_of_rowOk env cache r hok
    rw [h] at h2
    exact absurd (congrArg Prod.fst h2) (by simpa using ho p)

theorem okRowIds_cons (r : RawRow) (rs : List RawRow) :
    okRowIds (r :: rs)
      = if rowOk r then rowId r :: okRowIds rs else okRowIds rs := by
  cases hok : rowOk r <;> simp [okRowIds, List.filter_cons, hok]

theorem processRows_ids_sublist (env : Env) (cache : String → Option BrickPiece)
    (rows : List RawRow) :
    ((processRows env cache rows [] 0).pieces.map (fun p => p.id)).Sublist
      (okRowIds rows) := by
  induction rows with
  | nil => simp [processRows, okRowIds]
  | cons r rs ih =>
    rcases hpr : processRow env cache r with ⟨o, cs⟩
    cases o with
    | skip =>
      have hok : rowOk r = false :=
        processRow_not_ok_rowOk env cache r _ cs hpr (fun p => by simp)
      simp only [processRows, hpr, okRowIds_cons, hok, if_false, Bool.false_eq_true]
      exact ih
    | exn =>
      simp only [processRows, hpr]
      simp
    | ok p =>
      have hok : rowOk r = true := processRow_ok_rowOk env cache r p cs hpr
      have hid : p.id = rowId r := (processRow_ok_enrich env cache r p cs hpr).1
      obtain ⟨g1, -, -, -, -⟩ := processRows_shift env cache rs [p] 1
      simp only [processRows, hpr, List.nil_append, okRowIds_cons, hok, if_true]
      rw [g1, List.map_append]
      simp only [List.map_cons, List.map_nil, List.singleton_append, hid]
      exact List.Sublist.cons₂ (rowId r) ih

theorem mainLoop_ids_sublist (env : Env) (cache : String → Option BrickPiece) :
    ∀ fuel page,
      ((mainLoop env cache fuel page []).pieces.map (fun p => p.id)).Sublist
        ((List.range' page fuel).flatMap (fun pg => okRowIds (env.pages pg))) := by
  intro fuel
  induction fuel with
  | zero => intro page; simp [mainLoop]
  | succ fuel ih =>
    intro page
    rw [List.range'_succ, List.flatMap_cons]
    cases hab0 : (processRows env cache (env.pages page) [] 0).aborted with
    | true =>
      rw [mainLoop_succ_abort env cache fuel page [] hab0]
      exact (processRows_ids_sublist env cache (env.pages page)).trans
        (List.sublist_append_left _ _)
    | false =>
      by_cases hcnt : (processRows env cache (env.pages page) [] 0).count = 0
      · rw [mainLoop_succ_stop env cache fuel page [] hab0 hcnt]
        exact (processRows_ids_sublist env cache (env.pages page)).trans
          (List.sublist_append_left _ _)
      · rw [mainLoop_succ_cont env cache fuel page [] hab0 hcnt]
        obtain ⟨m1, -, -, -, -, -⟩ :=
          mainLoop_shift env cache fuel (page + 1)
            ((processRows env cache (env.pages page) [] 0).pieces)
        show ((mainLoop env cache fuel (page + 1)
          ((processRows env cache (env.pages page) [] 0).pieces)).pieces.map
            (fun p => p.id)).Sublist _
        rw [m1, List.map_append]
        exact List.Sublist.append (processRows_ids_sublist env cache (env.pages page))
          (ih (page + 1))

theorem run_ids_sublist (env : Env) (existing : List BrickPiece) :
    ((run env existing).pieces.map (fun p => p.id)).Sublist (allRowIds env) :=
  mainLoop_ids_sublist env (buildPartsDict existing) MAX_PAGES 1

/-! ### Remaining helper lemmas -/

theorem processRow_ok_fields (env : Env) (cache : String → Option BrickPiece)
    (r : RawRow) (p : BrickPiece) (cs : List Call)
    (h : processRow env cache r = (RowOutcome.ok p, cs)) :
    p.name = pyStrip (r.part_name_elem.getD "") ∧
    p.id = rowId r ∧
    parseRowCounts r = some (p.overall_rank, p.num_pieces, p.num_sets, p.num_colors) ∧
    parseYears (getTextStrip r.years_elem "") = some (p.begin_year, p.end_year) ∧
    parseTotalYears r.total_years_elem = some p.total_years := by
  rcases hn : r.part_name_elem with _ | nm
  · simp [processRow, hn] at h
  rcases hm : r.part_num_elem with _ | pid
  · simp [processRow, hn, hm] at h
  rcases hY : parseYears (getTextStrip r.years_elem "") with _ | ⟨bY, eY⟩
  · simp [processRow, hn, hm, hY] at h
  rcases hT : parseTotalYears r.total_years_elem with _ | tY
  · simp [processRow, hn, hm, hY, hT] at h
  rcases hC : parseRowCounts r with _ | ⟨rk, np2, ns2, nc2⟩
  · exfalso
    rcases hc : cache (pyStrip pid) with _ | ex
    · rcases hL : env.lookup (pyStrip pid) with ⟨blid, rb, ext⟩
      cases blid with
      | none => simp [processRow, hn, hm, hY, hT, hc, hL, buildPiece, hC] at h
      | some b =>
        rcases hD : env.detail b with ⟨w, dx, dy, dz⟩
        simp [processRow, hn, hm, hY, hT, hc, hL, hD, buildPiece, hC] at h
    · simp [processRow, hn, hm, hY, hT, hc, buildPiece, hC] at h
  · rcases hc : cache (pyStrip pid) with _ | ex
    · rcases hL : env.lookup (pyStrip pid) with ⟨blid, rb, ext⟩
      cases blid with
      | none =>
        simp only [processRow, hn, hm, hY, hT, hc, hL, buildPiece, hC,
          Prod.mk.injEq, RowOutcome.ok.injEq] at h
        obtain ⟨hp, -⟩ := h
        subst hp
        simp [rowId, hn, hm, hY, hT, hC]
      | some b =>
        rcases hD : env.detail b with ⟨w, dx, dy, dz⟩
        simp only [processRow, hn, hm, hY, hT, hc, hL, hD, buildPiece, hC,
          Prod.mk.injEq, RowOutcome.ok.injEq] at h
        obtain ⟨hp, -⟩ := h
        subst hp
        simp [rowId, hn, hm, hY, hT, hC]
    · simp only [processRow, hn, hm, hY, hT, hc, buildPiece, hC,
        Prod.mk.injEq, RowOutcome.ok.injEq] at h
      obtain ⟨hp, -⟩ := h
      subst hp
      simp [rowId, hn, hm, hY, hT, hC]

theorem parseRowCounts_eq_some (r : RawRow) (rk np2 ns2 nc2 : Int)
    (h : parseRowCounts r = some (rk, np2, ns2, nc2)) :
    parseIntElem r.rank_elem = some rk ∧
    parseIntElemComma r.num_pieces_elem = some np2 ∧
    parseIntElemComma r.num_sets_elem = some ns2 ∧
    parseIntElem r.num_colors_elem = some nc2 := by
  rcases h1 : parseIntElem r.rank_elem with _ | a
  · simp [parseRowCounts, h1] at h
  rcases h2 : parseIntElemComma r.num_pieces_elem with _ | b
  · simp [parseRowCounts, h1, h2] at h
  rcases h3 : parseIntElemComma r.num_sets_elem with _ | c
  · simp [parseRowCounts, h1, h2, h3] at h
  rcases h4 : parseIntElem r.num_colors_elem with _ | d
  · simp [parseRowCounts, h1, h2, h3, h4] at h
  simp only [parseRowCounts, h1, h2, h3, h4, Option.some.injEq, Prod.mk.injEq] at h
  obtain ⟨e1, e2, e3, e4⟩ := h
  exact ⟨by rw [e1], by rw [e2], by rw [e3], by rw [e4]⟩

theorem mainLoop_fetched (env : Env) (cache : String → Option BrickPiece) :
    ∀ fuel page acc,
      (mainLoop env cache fuel page acc).fetched
        = List.range' page (mainLoop env cache fuel page acc).fetched.length ∧
      (mainLoop env cache fuel page acc).fetched.length ≤ fuel := by
  intro fuel
  induction fuel with
  | zero => intro page acc; simp [mainLoop]
  | succ fuel ih =>
    intro page acc
    cases hab : (processRows env cache (env.pages page) acc 0).aborted with
    | true =>
      rw [mainLoop_succ_abort env cache fuel page acc hab]
      simp [List.range'_one]
    | false =>
      by_cases hcnt : (processRows env cache (env.pages page) acc 0).count = 0
      · rw [mainLoop_succ_stop env cache fuel page acc hab hcnt]
        simp [List.range'_one]
      · rw [mainLoop_succ_cont env cache fuel page acc hab hcnt]
        obtain ⟨h1, h2⟩ :=
          ih (page + 1) (processRows env cache (env.pages page) acc 0).pieces
        simp only [List.length_cons]
        refine ⟨?_, by omega⟩
        rw [List.range'_succ, ← h1]

theorem docAfterRun_of_getLast_some (env : Env) (d0 : Option Document) (d : Document)
    (h : (run env (loadExistingData d0)).saves.getLast? = some d) :
    docAfterRun env d0 = some d := by
  unfold docAfterRun
  rw [h]

theorem docAfterRun_of_getLast_none (env : Env) (d0 : Option Document)
    (h : (run env (loadExistingData d0)).saves.getLast? = none) :
    docAfterRun env d0 = d0 := by
  unfold docAfterRun
  rw [h]

/-! ## The claims -/

/-- C1 (confirmed): during any run, the document written by the (j+1)-st save
is exactly the first j+1 records the run appended, in processing order —
i.e. every record of the fully processed earlier pages followed by the first
N records of the in-progress page, with nothing lost and nothing duplicated —
and a restart that loads this document recovers exactly that list.  Killing
the process after N items of a page have been saved leaves the last such
document on disk. -/
theorem claim1_crash_safety (env : Env) (existing : List BrickPiece) (j : Nat)
    (hj : j < (run env existing).saves.length) :
    (run env existing).saves.getD j (saveData [])
        = saveData ((run env existing).pieces.take (j + 1)) ∧
    loadExistingData (some ((run env existing).saves.getD j (saveData [])))
        = (run env existing).pieces.take (j + 1) := by
  have hpre := run_saves_prefixes env existing
  have hlen : (run env existing).saves.length = (run env existing).pieces.length := by
    rw [hpre, List.length_map, prefixesOf_length]
  have hj2 : j < (run env existing).pieces.length := by omega
  have h1 : (run env existing).saves.getD j (saveData [])
      = saveData ((run env existing).pieces.take (j + 1)) := by
    rw [List.getD_eq_getElem?_getD, hpre, List.getElem?_map, prefixesOf_eq_map_range,
      List.getElem?_map, List.getElem?_range hj2]
    rfl
  exact ⟨h1, by rw [h1]; rfl⟩

/-- Witness for C1 at a concrete one-row environment: the run makes one save
and that save holds exactly the first (and only) appended record. -/
theorem claim1_crash_safety_witness :
    0 < (run (mkEnv [rowGood]) []).saves.length ∧
    ((run (mkEnv [rowGood]) []).saves.getD 0 (saveData [])
        = saveData ((run (mkEnv [rowGood]) []).pieces.take 1) ∧
      loadExistingData (some ((run (mkEnv [rowGood]) []).saves.getD 0 (saveData [])))
        = (run (mkEnv [rowGood]) []).pieces.take 1) :=
  ⟨by decide, claim1_crash_safety (mkEnv [rowGood]) [] 0 (by decide)⟩

/-- C4 (confirmed): the save trace of a run is exactly the successive
nonempty prefixes of the run's final in-memory sequence: after k rows have
been processed the document on disk holds exactly the k records appended in
this run, in processing order.  Since the in-memory list starts empty and
every save is a full overwrite, records loaded from a previous run's document
appear in no saved document until their id is re-encountered in this run. -/
theorem claim4_saves_full_overwrite (env : Env) (existing : List BrickPiece) :
    (run env existing).saves = (prefixesOf (run env existing).pieces).map saveData :=
  run_saves_prefixes env existing

/-- C3 (confirmed): for a row whose id is in the cache index, the merged
record takes every catalog-side field fresh from the row and copies weight,
pack_dim_x/y/z, rebrickable_part_num and external_ids verbatim from the
cached record, with no Lookup or Detail call.  The cached enrichment values
are copied whatever the row's other fields are, so a cached non-absent weight
is never changed by a later run even if e.g. the rank differs. -/
theorem claim3_cache_hit_merge (env : Env) (cache : String → Option BrickPiece)
    (r : RawRow) (p existing : BrickPiece) (cs : List Call)
    (hcache : cache (rowId r) = some existing)
    (h : processRow env cache r = (RowOutcome.ok p, cs)) :
    cs = [] ∧
    p.weight = existing.weight ∧
    p.pack_dim_x = existing.pack_dim_x ∧
    p.pack_dim_y = existing.pack_dim_y ∧
    p.pack_dim_z = existing.pack_dim_z ∧
    p.rebrickable_part_num = existing.rebrickable_part_num ∧
    p.external_ids = existing.external_ids ∧
    p.id = rowId r ∧
    p.name = pyStrip (r.part_name_elem.getD "") ∧
    parseRowCounts r = some (p.overall_rank, p.num_pieces, p.num_sets, p.num_colors) ∧
    parseYears (getTextStrip r.years_elem "") = some (p.begin_year, p.end_year) ∧
    parseTotalYears r.total_years_elem = some p.total_years := by
  rcases hn : r.part_name_elem with _ | nm
  · simp [processRow, hn] at h
  rcases hm : r.part_num_elem with _ | pid
  · simp [processRow, hn, hm] at h
  have hid : rowId r = (pyStrip pid) := by simp [rowId, hm]
  rw [hid] at hcache
  rcases hY : parseYears (getTextStrip r.years_elem "") with _ | ⟨bY, eY⟩
  · simp [processRow, hn, hm, hY] at h
  rcases hT : parseTotalYears r.total_years_elem with _ | tY
  · simp [processRow, hn, hm, hY, hT] at h
  rcases hC : parseRowCounts r with _ | ⟨rk, np2, ns2, nc2⟩
  · simp [processRow, hn, hm, hY, hT, hcache, buildPiece, hC] at h
  · simp only [processRow, hn, hm, hY, hT, hcache, buildPiece, hC,
      Prod.mk.injEq, RowOutcome.ok.injEq] at h
    obtain ⟨hp, hcs⟩ := h
    subst hp
    refine ⟨hcs.symm, rfl, rfl, rfl, rfl, rfl, rfl, by rw [hid], ?_, rfl, rfl, rfl⟩
    simp [hn]

/-- Witness for C3: a cache hit at a concrete row with a concrete cached
record, the merged record copying pOld's enrichment and taking rowGood's
catalog fields. -/
theorem claim3_cache_hit_merge_witness :
    ([] : List Call) = [] ∧
    pHit.weight = pOld.weight ∧
    pHit.pack_dim_x = pOld.pack_dim_x ∧
    pHit.pack_dim_y = pOld.pack_dim_y ∧
    pHit.pack_dim_z = pOld.pack_dim_z ∧
    pHit.rebrickable_part_num = pOld.rebrickable_part_num ∧
    pHit.external_ids = pOld.external_ids ∧
    pHit.id = rowId rowGood ∧
    pHit.name = pyStrip (rowGood.part_name_elem.getD "") ∧
    parseRowCounts rowGood
        = some (pHit.overall_rank, pHit.num_pieces, pHit.num_sets, pHit.num_colors) ∧
    parseYears (getTextStrip rowGood.years_elem "")
        = some (pHit.begin_year, pHit.end_year) ∧
    parseTotalYears rowGood.total_years_elem = some pHit.total_years :=
  claim3_cache_hit_merge (mkEnv []) cacheC rowGood pHit pOld [] (by decide) (by decide)

/-- C2 is false as stated: against this deterministic environment the first
run aborts on a row whose rank text fails `int()` after the cache-miss
Rebrickable lookup; the aborted row was never persisted, so the second run
against the unchanged sources repeats the Lookup call instead of making
none. -/
theorem claim2_counterexample :
    (run (mkEnv [rowBadRank])
        (loadExistingData (docAfterRun (mkEnv [rowBadRank]) none))).calls ≠ [] := by
  decide

/-- C2 (amended): provided the first run is not aborted by a row-level
exception, running the pipeline again against the same deterministic upstream
sources reproduces the same in-memory sequence, leaves the persisted document
unchanged (byte-identical, since serialization of equal piece lists is
deterministic), and makes no Lookup or Detail call — every row is a cache
hit. -/
theorem claim2_rerun_idempotent (env : Env) (d0 : Option Document)
    (hab : (run env (loadExistingData d0)).aborted = false) :
    (run env (loadExistingData (docAfterRun env d0))).pieces
        = (run env (loadExistingData d0)).pieces ∧
    docAfterRun env (docAfterRun env d0) = docAfterRun env d0 ∧
    (run env (loadExistingData (docAfterRun env d0))).calls = [] := by
  by_cases hnil : (run env (loadExistingData d0)).pieces = []
  · -- the first run wrote nothing: the document is untouched and the second
    -- run is literally the first again
    have hsv : (run env (loadExistingData d0)).saves = [] :=
      (run_saves_nil_iff env _).mpr hnil
    have hd : docAfterRun env d0 = d0 :=
      docAfterRun_of_getLast_none env d0 (by rw [hsv]; rfl)
    rw [hd]
    exact ⟨rfl, by rw [hd], run_calls_nil_of_no_pieces env _ hab hnil⟩
  · have hlast := run_saves_getLast env (loadExistingData d0) hnil
    have hd : docAfterRun env d0
        = some (saveData (run env (loadExistingData d0)).pieces) :=
      docAfterRun_of_getLast_some env d0 _ hlast
    have hload : loadExistingData (docAfterRun env d0)
        = (run env (loadExistingData d0)).pieces := by rw [hd]; rfl
    obtain ⟨s1, s2, s3, -⟩ := run_sim env (loadExistingData d0) hab
    refine ⟨by rw [hload, s1], ?_, by rw [hload, s3]⟩
    have hlast2 : (run env (loadExistingData (docAfterRun env d0))).saves.getLast?
        = some (saveData (run env (loadExistingData d0)).pieces) := by
      rw [hload, s2, hlast]
    rw [docAfterRun_of_getLast_some env (docAfterRun env d0) _ hlast2, hd]

/-- Witness for C2 at a concrete environment whose run completes: the second
run reproduces the pieces, the document is a fixed point, and no calls are
made. -/
theorem claim2_rerun_idempotent_witness :
    (run (mkEnvEnr [rowGood])
        (loadExistingData (docAfterRun (mkEnvEnr [rowGood]) none))).pieces
      = (run (mkEnvEnr [rowGood]) (loadExistingData none)).pieces ∧
    docAfterRun (mkEnvEnr [rowGood]) (docAfterRun (mkEnvEnr [rowGood]) none)
      = docAfterRun (mkEnvEnr [rowGood]) none ∧
    (run (mkEnvEnr [rowGood])
        (loadExistingData (docAfterRun (mkEnvEnr [rowGood]) none))).calls = [] :=
  claim2_rerun_idempotent (mkEnvEnr [rowGood]) none (by decide)

/-- C5 is false as stated: num_colors is parsed without stripping grouping
separators, so the color text "1,000" — which would parse to 1000 after the
claimed comma stripping — instead raises inside the dict literal and the row
ends in an exception (after the cache-miss Lookup call). -/
theorem claim5_counterexample :
    pyIntChars (removeCommas (pyStripChars "1,000".data)) = some 1000 ∧
    processRow (mkEnv []) (fun _ => none) rowCommaColors
      = (RowOutcome.exn, [Call.lookup "3068"]) := by
  decide

/-- C5 (amended): the piece and set counts strip commas before `int()`
(`.replace(',', '')`, lines 206-207 and 238-239), but the color count (and
the rank) are parsed with no comma stripping, so a grouping separator there
raises; a missing numeric element defaults to 0.  For every row that yields a
record, the record's numeric catalog fields are exactly these parses. -/
theorem claim5_numeric_parsing (s : String) (env : Env)
    (cache : String → Option BrickPiece) (r : RawRow) (p : BrickPiece)
    (cs : List Call) :
    parseIntElemComma (some s) = pyIntChars (removeCommas (pyStripChars s.data)) ∧
    parseIntElem (some s) = pyIntChars (pyStripChars s.data) ∧
    parseIntElemComma none = some 0 ∧
    parseIntElem none = some 0 ∧
    (processRow env cache r = (RowOutcome.ok p, cs) →
      parseIntElemComma r.num_pieces_elem = some p.num_pieces ∧
      parseIntElemComma r.num_sets_elem = some p.num_sets ∧
      parseIntElem r.num_colors_elem = some p.num_colors ∧
      parseIntElem r.rank_elem = some p.overall_rank) := by
  refine ⟨rfl, rfl, rfl, rfl, fun h => ?_⟩
  obtain ⟨-, -, hcounts, -, -⟩ := processRow_ok_fields env cache r p cs h
  obtain ⟨h1, h2, h3, h4⟩ := parseRowCounts_eq_some r _ _ _ _ hcounts
  exact ⟨h2, h3, h4, h1⟩

/-- Witness for C5: the comma-stripping parses at the concrete texts of
rowGood, reached through an actual processRow run. -/
theorem claim5_numeric_parsing_witness :
    parseIntElemComma rowGood.num_pieces_elem = some 1234 ∧
    parseIntElemComma rowGood.num_sets_elem = some 56 ∧
    parseIntElem rowGood.num_colors_elem = some 7 ∧
    parseIntElem rowGood.rank_elem = some 1 := by
  obtain ⟨g1, g2, g3, g4⟩ :=
    (claim5_numeric_parsing "1,234" (mkEnv []) cacheC rowGood pHit []).2.2.2.2
      (by decide)
  exact ⟨by rw [g1]; rfl, by rw [g2]; rfl, by rw [g3]; rfl, by rw [g4]; rfl⟩

/-- C6 is false as stated: the years text "a-b" contains a dash, so the code
splits it and calls `int("a")`, which raises; the exception propagates out of
the row (no fallback to zero) and aborts the page and the run. -/
theorem claim6_counterexample :
    processRow (mkEnv []) (fun _ => none) rowBadYears = (RowOutcome.exn, []) ∧
    (run (mkEnv [rowBadYears]) []).aborted = true ∧
    (run (mkEnv [rowBadYears]) []).pieces = [] := by
  decide

/-- C6 (amended): a year-range text "A-B" whose first two dash-segments parse
as integers yields begin_year = A and end_year = B; an absent years element
or a years text with no dash yields (0, 0) with no exception; but a
dash-containing text whose segments do not both parse as integers raises a
ValueError that propagates out of the row — before the cache check, with no
adapter call — aborting the page. -/
theorem claim6_year_parsing (s : String) (b e : Int) (env : Env)
    (cache : String → Option BrickPiece) (r : RawRow) :
    (s.data.contains '-' = false → parseYears s = some (0, 0)) ∧
    parseYears "2010-2015" = some (2010, 2015) ∧
    (s.data ≠ [] → s.data.contains '-' = true →
      pyIntChars ((splitChar '-' s.data).getD 0 []) = some b →
      pyIntChars ((splitChar '-' s.data).getD 1 []) = some e →
      parseYears s = some (b, e)) ∧
    (r.part_name_elem.isSome → r.part_num_elem.isSome →
      parseYears (getTextStrip r.years_elem "") = none →
      processRow env cache r = (RowOutcome.exn, [])) := by
  refine ⟨?_, by decide, ?_, ?_⟩
  · intro h
    have hc : (!s.data.isEmpty && s.data.contains '-') = false := by
      rw [h, Bool.and_false]
    simp only [parseYears, hc, Bool.false_eq_true, if_false]
  · intro hne hcon h0 h1
    simp only [parseYears, List.isEmpty_iff, hne, hcon, Bool.not_false,
      Bool.and_self, if_true, h0, h1]
    simp [hne]
  · intro hn hm hY
    obtain ⟨nm, hn2⟩ := Option.isSome_iff_exists.mp hn
    obtain ⟨pid, hm2⟩ := Option.isSome_iff_exists.mp hm
    simp [processRow, hn2, hm2, hY]

/-- Witness for C6: the three year-parsing behaviors at concrete inputs, the
exception case reached through processRow on rowBadYears. -/
theorem claim6_year_parsing_witness :
    parseYears "20052006" = some (0, 0) ∧
    parseYears "1999-2005" = some (1999, 2005) ∧
    processRow (mkEnv []) (fun _ => none) rowBadYears = (RowOutcome.exn, []) := by
  refine ⟨(claim6_year_parsing "20052006" 0 0 (mkEnv []) (fun _ => none)
      rowBadYears).1 (by decide), ?_, ?_⟩
  · exact (claim6_year_parsing "1999-2005" 1999 2005 (mkEnv []) (fun _ => none)
      rowBadYears).2.2.1 (by decide) (by decide) (by decide) (by decide)
  · exact (claim6_year_parsing "" 0 0 (mkEnv []) (fun _ => none)
      rowBadYears).2.2.2 (by decide) (by decide) (by decide)

/-- C7 is false as stated: a transport failure takes the except arm, which
returns all-absent values without sleeping, and so does a `float()` failure
while parsing (here a weight text whose digit run "2.5.6" has two dots). -/
theorem claim7_counterexample :
    scrapeBricklinkData none = ((none, none, none, none), none) ∧
    scrapeBricklinkData (some ⟨some "2.5.6g", []⟩)
      = ((none, none, none, none), none) := by
  decide

/-- C7 (amended): the fixed BrickLink delay is enforced exactly on the calls
whose fetch and `float()` conversions complete without an exception — even
when the weight or dimension fields are absent — while the except arm
(transport failure or parse failure) returns all-absent and skips the
delay. -/
theorem claim7_detail_sleep (dp : DetailPage) (w : Option ℚ)
    (d : Option ℚ × Option ℚ × Option ℚ) :
    (parseWeightE dp.weight_elem = Except.ok w →
      parseDimsE dp.dim_spans = Except.ok d →
      scrapeBricklinkData (some dp)
        = ((w, d.1, d.2.1, d.2.2), some BRICKLINK_SLEEP_DURATION)) ∧
    ((scrapeBricklinkData (some dp)).2 = none →
      (scrapeBricklinkData (some dp)).1 = (none, none, none, none)) ∧
    scrapeBricklinkData none = ((none, none, none, none), none) := by
  refine ⟨?_, ?_, rfl⟩
  · intro h1 h2
    rcases d with ⟨x, y, z⟩
    simp [scrapeBricklinkData, h1, h2]
  · intro h
    cases h1 : parseWeightE dp.weight_elem with
    | error u => simp [scrapeBricklinkData, h1]
    | ok w2 =>
      cases h2 : parseDimsE dp.dim_spans with
      | error u => simp [scrapeBricklinkData, h1, h2]
      | ok d2 =>
        exfalso
        rcases d2 with ⟨x, y, z⟩
        simp [scrapeBricklinkData, h1, h2] at h

/-- Witness for C7: a successful detail call at a concrete page parses the
weight and the first qualifying dimension span and performs the sleep. -/
theorem claim7_detail_sleep_witness :
    scrapeBricklinkData (some ⟨some "25g", ["1 x 2 x 3 cm"]⟩)
      = ((some (25 : ℚ), some 1, some 2, some 3),
         some BRICKLINK_SLEEP_DURATION) :=
  (claim7_detail_sleep ⟨some "25g", ["1 x 2 x 3 cm"]⟩ (some (25 : ℚ))
    (some 1, some 2, some 3)).1 (by decide) (by decide)

/-- C8 (confirmed): the orchestrator fetches pages in ascending order
starting at 1 and fetches at most MAX_PAGES page numbers; when pages 1-3
yield nonzero pieces_counts without raising and page 4 onwards carries no
rows, the run fetches exactly pages 1,2,3,4, records a zero count for page 4
and terminates there, processes exactly 3 pages, and ends without error. -/
theorem claim8_pagination (env : Env) (existing : List BrickPiece) :
    ((run env existing).fetched
        = List.range' 1 (run env existing).fetched.length ∧
      (run env existing).fetched.length ≤ MAX_PAGES) ∧
    ((∀ pg, 4 ≤ pg → env.pages pg = []) →
      pageAbortedOf env existing 1 = false → pageCountOf env existing 1 ≠ 0 →
      pageAbortedOf env existing 2 = false → pageCountOf env existing 2 ≠ 0 →
      pageAbortedOf env existing 3 = false → pageCountOf env existing 3 ≠ 0 →
      (run env existing).fetched = [1, 2, 3, 4] ∧
      (run env existing).pageCounts
          = [pageCountOf env existing 1, pageCountOf env existing 2,
             pageCountOf env existing 3, 0] ∧
      processedPages (run env existing) = 3 ∧
      (run env existing).aborted = false) := by
  constructor
  · exact mainLoop_fetched env (buildPartsDict existing) MAX_PAGES 1 []
  · intro h4 ha1 hc1 ha2 hc2 ha3 hc3
    have hrun : run env existing
        = mainLoop env (buildPartsDict existing) (99 + 1) 1 [] := rfl
    have e1 := mainLoop_succ_cont env (buildPartsDict existing) 99 1 [] ha1 hc1
    obtain ⟨q1, q2, -, -, q5⟩ := processRows_shift env (buildPartsDict existing)
      (env.pages 2)
      (processRows env (buildPartsDict existing) (env.pages 1) [] 0).pieces 0
    have e2 := mainLoop_succ_cont env (buildPartsDict existing) 98 2
      (processRows env (buildPartsDict existing) (env.pages 1) [] 0).pieces
      (by rw [q5]; exact ha2) (by rw [q2]; simpa using hc2)
    obtain ⟨w1, w2, -, -, w5⟩ := processRows_shift env (buildPartsDict existing)
      (env.pages 3)
      (processRows env (buildPartsDict existing) (env.pages 2)
        (processRows env (buildPartsDict existing) (env.pages 1) [] 0).pieces 0).pieces 0
    have e3 := mainLoop_succ_cont env (buildPartsDict existing) 97 3
      (processRows env (buildPartsDict existing) (env.pages 2)
        (processRows env (buildPartsDict existing) (env.pages 1) [] 0).pieces 0).pieces
      (by rw [w5]; exact ha3) (by rw [w2]; simpa using hc3)
    have h44 : env.pages 4 = [] := h4 4 (by omega)
    have e4 := mainLoop_succ_stop env (buildPartsDict existing) 96 4
      (processRows env (buildPartsDict existing) (env.pages 3)
        (processRows env (buildPartsDict existing) (env.pages 2)
          (processRows env (buildPartsDict existing) (env.pages 1) [] 0).pieces 0).pieces 0).pieces
      (by rw [h44]; rfl) (by rw [h44]; rfl)
    rw [hrun, e1, show (99 : Nat) = 98 + 1 from rfl, e2,
      show (98 : Nat) = 97 + 1 from rfl, e3,
      show (97 : Nat) = 96 + 1 from rfl, e4]
    rw [h44]
    refine ⟨rfl, ?_, ?_, rfl⟩
    · show _ :: _ :: _ :: [(processRows env (buildPartsDict existing) ([] : List RawRow) _ 0).count] = _
      rw [q2, w2]
      simp only [processRows, Nat.zero_add]
      rfl
    · show (List.filter _ (_ :: _ :: _ :: [(processRows env (buildPartsDict existing) ([] : List RawRow) _ 0).count])).length = 3
      rw [q2, w2]
      simp only [processRows, Nat.zero_add]
      simp only [pageCountOf] at hc1 hc2 hc3
      simp [List.filter_cons, hc1, hc2, hc3]

/-- Witness for C8: an environment with one countable row on each of pages
1-3 and empty pages afterwards is processed as exactly 3 pages plus the
terminating empty fetch of page 4. -/
theorem claim8_pagination_witness :
    (run envPages123 []).fetched = [1, 2, 3, 4] ∧
    processedPages (run envPages123 []) = 3 ∧
    (run envPages123 []).aborted = false := by
  have h4 : ∀ pg, 4 ≤ pg → envPages123.pages pg = [] := by
    intro pg hpg
    show (if pg ≤ 3 then [rowGood] else []) = []
    rw [if_neg (by omega)]
  obtain ⟨g1, g2, g3, g4⟩ := (claim8_pagination envPages123 []).2 h4
    (by decide) (by decide) (by decide) (by decide) (by decide) (by decide)
  exact ⟨g1, g3, g4⟩

/-- C9 is false as stated: when the same id appears on two countable rows of
the observed pages, both occurrences are cache misses against the run-initial
index (the index is never updated during the run), both are appended, and the
persisted result set — here the final saved document — carries the id
twice. -/
theorem claim9_counterexample :
    saveData (run (mkEnv [rowGood, rowGood]) []).pieces
        ∈ (run (mkEnv [rowGood, rowGood]) []).saves ∧
    ¬ (((run (mkEnv [rowGood, rowGood]) []).pieces.map (fun p => p.id)).Nodup) := by
  decide

/-- C9 (amended): provided the countable rows across all pages the run can
observe carry pairwise distinct ids, the ids in the run's final sequence —
and in every document it persists — are pairwise distinct. -/
theorem claim9_unique_ids (env : Env) (existing : List BrickPiece)
    (h : (allRowIds env).Nodup) :
    ((run env existing).pieces.map (fun p => p.id)).Nodup ∧
    ∀ d ∈ (run env existing).saves, (d.pieces.map (fun p => p.id)).Nodup := by
  have hmain : ((run env existing).pieces.map (fun p => p.id)).Nodup :=
    List.Nodup.sublist (run_ids_sublist env existing) h
  refine ⟨hmain, ?_⟩
  intro d hd
  rw [run_saves_prefixes] at hd
  obtain ⟨t, ht, rfl⟩ := List.mem_map.mp hd
  rw [prefixesOf_eq_map_range] at ht
  obtain ⟨i, -, rfl⟩ := List.mem_map.mp ht
  exact List.Nodup.sublist (List.Sublist.map _ (List.take_sublist _ _)) hmain

/-- Witness for C9 at a one-row environment whose countable ids are distinct
across all pages. -/
theorem claim9_unique_ids_witness :
    (allRowIds (mkEnv [rowGood])).Nodup ∧
    ((run (mkEnv [rowGood]) []).pieces.map (fun p => p.id)).Nodup :=
  ⟨by decide, (claim9_unique_ids (mkEnv [rowGood]) [] (by decide)).1⟩

/-- C10 (confirmed, over exact real arithmetic): the derived minimum bounding
sphere diameter is the Euclidean diagonal of the cm-to-mm converted
dimensions; for the records with dimensions (1,1,1), (2,2,2), (3,3,3) cm the
diameters are √3·10, 2·√3·10 and 3·√3·10 mm, the weights are all 1 since
DO_WEIGHTING is off, and the weighted (here unweighted) mean is exactly
2·√3·10 mm. -/
theorem claim10_sphere_diameters :
    (∀ x y z : ℚ, getMinSphereDiameter x y z
        = Real.sqrt (((x : ℝ) * 10) ^ 2 + ((y : ℝ) * 10) ^ 2 + ((z : ℝ) * 10) ^ 2)) ∧
    (extractSphereDiameters c10Parts).1
        = [Real.sqrt 3 * 10, 2 * (Real.sqrt 3 * 10), 3 * (Real.sqrt 3 * 10)] ∧
    (extractSphereDiameters c10Parts).2 = [1, 1, 1] ∧
    npAverage (extractSphereDiameters c10Parts).1 (extractSphereDiameters c10Parts).2
        = 2 * (Real.sqrt 3 * 10) := by
  have hform : ∀ x y z : ℚ, getMinSphereDiameter x y z
      = Real.sqrt (((x : ℝ) * 10) ^ 2 + ((y : ℝ) * 10) ^ 2 + ((z : ℝ) * 10) ^ 2) := by
    intro x y z
    simp only [getMinSphereDiameter]
    push_cast
    ring_nf
  have key : ∀ a : ℝ, 0 ≤ a →
      Real.sqrt ((a * 10) ^ 2 + (a * 10) ^ 2 + (a * 10) ^ 2) = a * (Real.sqrt 3 * 10) := by
    intro a ha
    rw [show (a * 10) ^ 2 + (a * 10) ^ 2 + (a * 10) ^ 2 = 3 * (a * 10) ^ 2 by ring,
      Real.sqrt_mul (by norm_num : (0 : ℝ) ≤ 3),
      Real.sqrt_sq (by positivity : (0 : ℝ) ≤ a * 10)]
    ring
  have d1 : getMinSphereDiameter 1 1 1 = Real.sqrt 3 * 10 := by
    rw [hform]
    have := key 1 (by norm_num)
    norm_num at this ⊢
    rw [this]
  have d2 : getMinSphereDiameter 2 2 2 = 2 * (Real.sqrt 3 * 10) := by
    rw [hform]
    have := key 2 (by norm_num)
    norm_num at this ⊢
    rw [this]
  have d3 : getMinSphereDiameter 3 3 3 = 3 * (Real.sqrt 3 * 10) := by
    rw [hform]
    have := key 3 (by norm_num)
    norm_num at this ⊢
    rw [this]
  have hextract : extractSphereDiameters c10Parts
      = ([getMinSphereDiameter 1 1 1, getMinSphereDiameter 2 2 2,
          getMinSphereDiameter 3 3 3], [1, 1, 1]) := by
    simp [extractSphereDiameters, c10Parts, DO_WEIGHTING]
  rw [hextract]
  refine ⟨hform, by rw [d1, d2, d3], rfl, ?_⟩
  rw [d1, d2, d3]
  have hden : (([1, 1, 1] : List ℚ).map (fun w => (w : ℝ))).sum = 3 := by
    norm_num
  simp only [npAverage, hden, List.zip_cons_cons, List.zip_nil_right,
    List.map_cons, List.map_nil, List.sum_cons, List.sum_nil, Rat.cast_one]
  ring

end Spheres
